import Mathlib

/-!
Verification of the real-time multiplayer bingo coordinator (`server.js`).

The development shallowly embeds the server's in-memory data model and its
socket event handlers as pure Lean functions.  JavaScript `Map`s become
association lists (`List (String × _)`) with JS `Map.set`/`get`/`delete`
semantics, JS `Set`s become `Finset`s (a JS `Set` cannot hold duplicates),
and the nondeterministic inputs of a handler (the rejection-sampled drawn
number, the generated room code, the generated player id, `Date.now()`)
become explicit parameters of the corresponding operation.  The
postconditions that the source's generation loops guarantee for those
parameters are collected in `opOk`.  Emitted socket events are returned as
a list of `Ev` values.
-/

namespace BingoServer

/-- A bingo card: rows of optional numbers (`none` is a blank slot, JS `null`). -/
abbrev Card := List (List (Option Nat))

/-- One entry of `room.playerData` (`playerId -> { username, bingoCard, socketId }`). -/
structure PlayerData where
  username : String
  bingoCard : Option Card
  socketId : Option String
deriving DecidableEq

/-- One entry of the global `users` map (`socketId -> user`).  Fields that the
source leaves `undefined` on some paths are `Option`s. -/
structure User where
  userId : String
  username : String
  isAdmin : Bool
  roomId : Option String
  playerId : Option String
  bingoCard : Option Card
deriving DecidableEq

/-- `room.winnerInfo` as built in the win-check timeout body. -/
structure WinnerInfo where
  playerId : String
  playerName : String
  rowNumber : Nat
  numbers : List Nat
  bingoCard : Option Card
deriving DecidableEq

/-- A room, as created by the `room:create` handler.  The duplicate-notification
keys `` `${playerId}_row_${rowIndex}` `` are modelled as pairs
`(playerId, rowIndex)`. -/
structure Room where
  roomId : String
  adminId : String
  adminSocketId : Option String
  players : Finset String
  drawnNumbers : Finset Nat
  gameStarted : Bool
  gameOver : Bool
  winner : Option String
  winnerInfo : Option WinnerInfo
  createdAt : Nat
  playerData : List (String × PlayerData)
  completedRows : Finset (String × Nat)
deriving DecidableEq

/-- One record of `roomHistory` (the summary handed to `addRoomToHistory`). -/
structure HistRecord where
  roomId : String
  createdAt : Nat
  closedAt : Nat
  winner : String
  winnerRowNumber : Nat
  winnerNumbers : List Nat
  winnerBingoCard : Option Card
  totalPlayers : Nat
  totalNumbersDrawn : Nat
deriving DecidableEq

/-- The whole in-memory server state: the `rooms` and `users` maps, the
`roomHistory` array and the `MAX_HISTORY_SIZE` configuration value. -/
structure ServerState where
  rooms : List (String × Room)
  users : List (String × User)
  history : List HistRecord
  maxHistorySize : Nat
deriving DecidableEq

/-! ### JS `Map` operations on association lists -/

/-- `Map.get`. -/
def mapGet {α : Type} (k : String) : List (String × α) → Option α
  | [] => none
  | (a, b) :: rest => if a = k then some b else mapGet k rest

/-- `Map.set`: update in place, append when the key is new. -/
def mapSet {α : Type} (k : String) (v : α) : List (String × α) → List (String × α)
  | [] => [(k, v)]
  | (a, b) :: rest => if a = k then (k, v) :: rest else (a, b) :: mapSet k v rest

/-- `Map.delete`. -/
def mapDelete {α : Type} (k : String) : List (String × α) → List (String × α)
  | [] => []
  | (a, b) :: rest => if a = k then mapDelete k rest else (a, b) :: mapDelete k rest

/-- `Map.has`. -/
def mapHas {α : Type} (k : String) (m : List (String × α)) : Bool :=
  (mapGet k m).isSome

/-! ### History persistence (`cleanupOldRooms`, `addRoomToHistory`)

The file-size branch of `checkDiskSpaceAndCleanup` and the `fs` reads/writes
are filesystem I/O outside this model; the in-memory record-count policy is
modelled in full. -/

/-- Stable ascending insertion by `closedAt`; models
`roomHistory.sort((a, b) => new Date(a.closedAt) - new Date(b.closedAt))`. -/
def insertByClosedAt (r : HistRecord) : List HistRecord → List HistRecord
  | [] => [r]
  | x :: xs => if r.closedAt < x.closedAt then r :: x :: xs else x :: insertByClosedAt r xs

/-- Sort the history ascending by `closedAt`. -/
def sortByClosedAt (l : List HistRecord) : List HistRecord :=
  l.foldr insertByClosedAt []

/-- `cleanupOldRooms(maxSize)`: sort by close date (oldest first) and drop the
oldest records beyond `maxSize`. -/
def cleanupOldRooms (maxSize : Nat) (hist : List HistRecord) : List HistRecord :=
  if hist.length ≤ maxSize then hist
  else (sortByClosedAt hist).drop (hist.length - maxSize)

/-- The record-count branch of `checkDiskSpaceAndCleanup`. -/
def checkDiskSpaceAndCleanup (maxSize : Nat) (hist : List HistRecord) : List HistRecord :=
  if maxSize < hist.length then cleanupOldRooms maxSize hist else hist

/-- `addRoomToHistory`: push the record, then enforce the size cap. -/
def addRoomToHistory (maxSize : Nat) (hist : List HistRecord) (r : HistRecord) :
    List HistRecord :=
  checkDiskSpaceAndCleanup maxSize (hist ++ [r])

/-! ### Emitted socket events -/

/-- One entry of the roster snapshot sent by `sendPlayersListToAdmin`. -/
structure RosterEntry where
  playerId : String
  name : String
  bingoCard : Option Card
deriving DecidableEq

/-- Events emitted by the handlers.  `target` is the receiving socket for
point-to-point emits; broadcast events carry the room id channel.  The wire
payload of `game:rowCompleted` carries only the player name; the model also
records the `playerId` of the completion record that produced the event. -/
inductive Ev where
  | errorMsg (target msg : String)
  | adminLoginSuccess (target username : String)
  | adminLoginError (target : String)
  | roomCreated (target rid : String) (playerCount : Nat) (reconnected : Bool)
      (drawn : Option (List Nat))
  | roomJoined (target rid : String) (playerCount : Nat) (isAdmin : Bool)
      (drawn : List Nat) (playerId playerName : String) (bingoCard : Option Card)
  | playerJoinedBroadcast (rid : String) (playerCount : Nat) (playerId playerName : String)
  | playersList (target : String) (players : List RosterEntry)
  | playerBingoCardToAdmin (target playerId playerName : String) (bingoCard : Card)
  | numberDrawn (rid : String) (number : Nat) (startTime : Nat) (drawn : List Nat)
  | rowCompleted (rid playerId playerName : String) (rowNumber : Nat) (numbers : List Nat)
  | roomClosed (rid msg : String)
  | playerLeft (rid : String) (playerCount : Nat) (playerId playerName : String)
deriving DecidableEq

/-- Insert a number into an ascending list, keeping it ascending. -/
def insertSorted (n : Nat) : List Nat → List Nat
  | [] => [n]
  | x :: xs => if n ≤ x then n :: x :: xs else x :: insertSorted n xs

theorem insertSorted_comm_of_lt {a b : Nat} (hab : a < b) :
    ∀ l : List Nat, insertSorted a (insertSorted b l) = insertSorted b (insertSorted a l) := by
  intro l
  induction l with
  | nil =>
    simp [insertSorted, Nat.le_of_lt hab, Nat.not_le.mpr hab]
  | cons x xs ih =>
    by_cases hbx : b ≤ x
    · have hax : a ≤ x := Nat.le_trans (Nat.le_of_lt hab) hbx
      simp [insertSorted, hbx, hax, Nat.le_of_lt hab, Nat.not_le.mpr hab]
    · by_cases hax : a ≤ x
      · simp [insertSorted, hbx, hax, Nat.not_le.mpr hab]
      · simp [insertSorted, hbx, hax, ih]

instance : LeftCommutative insertSorted :=
  ⟨fun a b l => by
    rcases Nat.lt_trichotomy a b with h | h | h
    · exact insertSorted_comm_of_lt h l
    · rw [h]
    · exact (insertSorted_comm_of_lt h l).symm⟩

/-- The serialisation `Array.from(drawnNumbers)` sent on the wire, modelled as
the ascending enumeration of the set (kernel-computable, unlike
`Finset.sort`). -/
def sortedDraws (s : Finset Nat) : List Nat :=
  Multiset.foldr insertSorted [] s.val

theorem insertSorted_perm (a : Nat) (l : List Nat) :
    List.Perm (insertSorted a l) (a :: l) := by
  induction l with
  | nil => exact List.Perm.refl _
  | cons x xs ih =>
    by_cases h : a ≤ x
    · simp only [insertSorted, if_pos h]
      exact List.Perm.refl _
    · simp only [insertSorted, if_neg h]
      exact List.Perm.trans (List.Perm.cons x ih) (List.Perm.swap a x xs)

theorem coe_sortedDraws_val (m : Multiset Nat) :
    ((Multiset.foldr insertSorted [] m : List Nat) : Multiset Nat) = m := by
  induction m using Multiset.induction_on with
  | empty => rfl
  | cons a s ih =>
    rw [Multiset.foldr_cons]
    have hcoe : ((insertSorted a (Multiset.foldr insertSorted [] s) : List Nat) : Multiset Nat)
        = ((a :: Multiset.foldr insertSorted [] s : List Nat) : Multiset Nat) :=
      Quot.sound (insertSorted_perm _ _)
    rw [hcoe, ← Multiset.cons_coe, ih]

/-- The wire serialisation of a drawn set has no duplicates. -/
theorem sortedDraws_nodup (s : Finset Nat) : (sortedDraws s).Nodup := by
  have h := coe_sortedDraws_val s.val
  have hnd : Multiset.Nodup (sortedDraws s : Multiset Nat) := by
    unfold sortedDraws
    rw [h]
    exact s.nodup
  exact Multiset.coe_nodup.mp hnd

/-- The roster snapshot sent by `sendPlayersListToAdmin`. -/
def playersListOf (room : Room) : List RosterEntry :=
  room.playerData.map (fun p =>
    { playerId := p.1, name := p.2.username, bingoCard := p.2.bingoCard })

/-- `sendPlayersListToAdmin`: emits only when the admin socket reference is
live (a `null` slot reaches no socket). -/
def sendPlayersListToAdmin (room : Room) : List Ev :=
  match room.adminSocketId with
  | some a => [Ev.playersList a (playersListOf room)]
  | none => []

/-! ### Win detection -/

/-- `checkRowComplete(row, drawnNumbers)`: the non-blank slots of the row,
when all of them are drawn and there are exactly 5 of them; `null` otherwise. -/
def checkRowComplete (row : List (Option Nat)) (drawnNumbers : Finset Nat) :
    Option (List Nat) :=
  if row.length = 0 then none
  else
    let rowNumbers := row.filterMap id
    if (∀ n ∈ rowNumbers, n ∈ drawnNumbers) ∧ rowNumbers.length = 5 then some rowNumbers
    else none

/-- A completion record collected by `checkPlayersForCompletedRows`
(`rowNumber` is 1-indexed for display). -/
structure Completion where
  playerId : String
  playerName : String
  rowNumber : Nat
  numbers : List Nat
deriving DecidableEq

/-- The duplicate-notification key of a collected completion. -/
def keyOf (c : Completion) : String × Nat :=
  (c.playerId, c.rowNumber - 1)

/-- The inner `bingoCard.forEach((row, rowIndex) => ...)` of
`checkPlayersForCompletedRows`: walk one player's rows, recording fresh
completed rows in the notified set and collecting their records. -/
def checkRowsPlayer (pid uname : String) (drawn : Finset Nat) :
    List (List (Option Nat)) → Nat → Finset (String × Nat) →
    Finset (String × Nat) × List Completion
  | [], _, acc => (acc, [])
  | row :: rest, idx, acc =>
    match checkRowComplete row drawn with
    | none => checkRowsPlayer pid uname drawn rest (idx + 1) acc
    | some nums =>
      if (pid, idx) ∈ acc then checkRowsPlayer pid uname drawn rest (idx + 1) acc
      else
        let res := checkRowsPlayer pid uname drawn rest (idx + 1) (insert (pid, idx) acc)
        (res.1, { playerId := pid, playerName := uname, rowNumber := idx + 1,
                  numbers := nums } :: res.2)

/-- The outer `room.playerData.forEach` of `checkPlayersForCompletedRows`:
players with no card or an empty card are skipped. -/
def checkAllPlayers (drawn : Finset Nat) :
    List (String × PlayerData) → Finset (String × Nat) →
    Finset (String × Nat) × List Completion
  | [], acc => (acc, [])
  | (pid, pd) :: rest, acc =>
    match pd.bingoCard with
    | none => checkAllPlayers drawn rest acc
    | some card =>
      if card.length = 0 then checkAllPlayers drawn rest acc
      else
        let res1 := checkRowsPlayer pid pd.username drawn card 0 acc
        let res2 := checkAllPlayers drawn rest res1.1
        (res2.1, res1.2 ++ res2.2)

/-- `checkPlayersForCompletedRows(room)`: returns the updated notified-rows
set and the freshly collected completion records. -/
def checkPlayersForCompletedRows (room : Room) :
    Finset (String × Nat) × List Completion :=
  checkAllPlayers room.drawnNumbers room.playerData room.completedRows

/-! ### Event handlers -/

/-- Default admin credentials (`process.env` fallbacks in the source). -/
def adminUsername : String := "admin"

/-- Default admin password. -/
def adminPassword : String := "admin123"

/-- The `admin:login` handler. -/
def adminLoginStep (sock username password : String) (st : ServerState) :
    ServerState × List Ev :=
  if username = adminUsername ∧ password = adminPassword then
    let u : User := { userId := sock, username := username, isAdmin := true,
                      roomId := none, playerId := none, bingoCard := none }
    ({ st with users := mapSet sock u st.users }, [Ev.adminLoginSuccess sock username])
  else (st, [Ev.adminLoginError sock])

/-- The room record built by the fresh-creation branch of `room:create`. -/
def freshRoom (sock code : String) (now : Nat) : Room :=
  { roomId := code, adminId := sock, adminSocketId := some sock,
    players := {sock}, drawnNumbers := ∅, gameStarted := false, gameOver := false,
    winner := none, winnerInfo := none, createdAt := now, playerData := [],
    completedRows := ∅ }

/-- `if (!user.username) user.username = 'Admin'` in the `room:create`
handler (the empty string is the falsy case). -/
def adminName (user0 : User) : User :=
  if user0.username = "" then { user0 with username := "Admin" } else user0

/-- The fresh-creation tail of the `room:create` handler: `freshCode` is the
output of the `generateRoomCode` retry loop. -/
def createFreshRoom (sock : String) (user1 : User) (freshCode : String) (now : Nat)
    (st : ServerState) : ServerState × List Ev :=
  let room := freshRoom sock freshCode now
  let user2 := { user1 with roomId := some freshCode }
  ({ st with rooms := mapSet freshCode room st.rooms,
             users := mapSet sock user2 st.users },
   Ev.roomCreated sock freshCode 1 false none :: sendPlayersListToAdmin room)

/-- The `room:create` handler.  `dataRoomId` is the optional `roomId` field of
the payload (`none` also covers the falsy empty string via the explicit
check); the admin re-binds to an existing live room exactly when its
`adminSocketId` is `null`. -/
def roomCreateStep (sock : String) (dataRoomId : Option String) (freshCode : String)
    (now : Nat) (st : ServerState) : ServerState × List Ev :=
  match mapGet sock st.users with
  | none => (st, [Ev.errorMsg sock "Only admins can create rooms"])
  | some user0 =>
    if user0.isAdmin then
      let user1 := adminName user0
      match dataRoomId with
      | some rid =>
        if rid = "" then createFreshRoom sock user1 freshCode now st
        else
          match mapGet rid st.rooms with
          | some room =>
            if room.adminSocketId = none then
              let room' := { room with adminSocketId := some sock,
                                       players := insert sock room.players }
              let user2 := { user1 with roomId := some rid }
              ({ st with rooms := mapSet rid room' st.rooms,
                         users := mapSet sock user2 st.users },
               Ev.roomCreated sock rid room'.players.card true
                   (some (sortedDraws room'.drawnNumbers))
                 :: sendPlayersListToAdmin room')
            else createFreshRoom sock user1 freshCode now st
          | none => createFreshRoom sock user1 freshCode now st
      | none => createFreshRoom sock user1 freshCode now st
    else (st, [Ev.errorMsg sock "Only admins can create rooms"])

/-- `String.trim`, modelled on the character list (kernel-computable). -/
def trimChars (s : String) : String :=
  String.mk ((s.data.dropWhile Char.isWhitespace).reverse.dropWhile Char.isWhitespace).reverse

/-- `String.toLowerCase`, modelled on the character list with the ASCII case
map (kernel-computable; the names exercised here are ASCII). -/
def lowerChars (s : String) : String :=
  String.mk (s.data.map (fun c =>
    if 65 <= c.toNat ∧ c.toNat <= 90 then Char.ofNat (c.toNat + 32) else c))

/-- The duplicate-name scan of `room:join`: another player (excluding the
presented session id) already holds the trimmed name case-insensitively. -/
def nameClash (room : Room) (sessionId : Option String) (trimmedName : String) : Bool :=
  room.playerData.any (fun p =>
    (match sessionId with
     | some sid => p.1 != sid
     | none => true)
    && (lowerChars p.2.username == lowerChars trimmedName))

/-- The session-id resolution of `room:join`: keep the presented id when it is
truthy and resolves to a profile in the room, otherwise mint the fresh id. -/
def resolvePlayerId (room : Room) (sessionId : Option String)
    (freshPlayerId : String) : String :=
  match sessionId with
  | some sid => if sid ≠ "" ∧ mapHas sid room.playerData then sid else freshPlayerId
  | none => freshPlayerId

/-- The profile stored by `room:join`: an existing profile is reused with the
name and socket refreshed; otherwise a new card-less profile is created. -/
def joinedPlayerData (room : Room) (apid trimmedName sock : String) : PlayerData :=
  match mapGet apid room.playerData with
  | some old => { old with username := trimmedName, socketId := some sock }
  | none => { username := trimmedName, bingoCard := none, socketId := some sock }

/-- The `room:join` handler.  `freshPlayerId` is the id the handler would mint
(`` `player_${Date.now()}_${random}` ``) when the presented session id does not
resolve. -/
def roomJoinStep (sock rid playerName : String) (sessionId : Option String)
    (freshPlayerId : String) (st : ServerState) : ServerState × List Ev :=
  match mapGet rid st.rooms with
  | none => (st, [Ev.errorMsg sock "Room not found"])
  | some room =>
    if trimChars playerName = "" then (st, [Ev.errorMsg sock "Please enter your name"])
    else
      let trimmedName := trimChars playerName
      if nameClash room sessionId trimmedName then
        (st, [Ev.errorMsg sock "This name is already taken. Please choose another name."])
      else
        let actualPlayerId := resolvePlayerId room sessionId freshPlayerId
        let pd := joinedPlayerData room actualPlayerId trimmedName sock
        let room' := { room with playerData := mapSet actualPlayerId pd room.playerData,
                                 players := insert sock room.players }
        let user0 := (mapGet sock st.users).getD
          ({ userId := sock, username := trimmedName, isAdmin := false,
             roomId := none, playerId := none, bingoCard := none })
        let user1 := { user0 with username := trimmedName, roomId := some rid,
                                  playerId := some actualPlayerId }
        ({ st with rooms := mapSet rid room' st.rooms,
                   users := mapSet sock user1 st.users },
         [Ev.roomJoined sock rid room'.players.card user1.isAdmin
            (sortedDraws room.drawnNumbers) actualPlayerId trimmedName pd.bingoCard,
          Ev.playerJoinedBroadcast rid room'.players.card actualPlayerId trimmedName]
           ++ sendPlayersListToAdmin room')

/-- The `player:bingoCard` handler. -/
def playerBingoCardStep (sock rid : String) (card : Card) (pidOpt : Option String)
    (st : ServerState) : ServerState × List Ev :=
  match mapGet sock st.users, mapGet rid st.rooms with
  | some user, some room =>
    if sock ∈ room.players then
      let user' := { user with bingoCard := some card }
      let actualPlayerId : Option String :=
        match pidOpt with
        | some p => if p = "" then user.playerId else some p
        | none => user.playerId
      let newPlayerData :=
        match actualPlayerId with
        | some apid =>
          if apid = "" then room.playerData
          else
            match mapGet apid room.playerData with
            | some pd =>
              let pd' : PlayerData := { pd with bingoCard := some card }
              mapSet apid pd' room.playerData
            | none =>
              let pd' : PlayerData := { username := user.username,
                                        bingoCard := some card, socketId := some sock }
              mapSet apid pd' room.playerData
        | none => room.playerData
      let room' := { room with playerData := newPlayerData }
      let idOrSock :=
        match actualPlayerId with
        | some p => if p = "" then sock else p
        | none => sock
      let adminTarget := room.adminSocketId.getD room.adminId
      ({ st with rooms := mapSet rid room' st.rooms,
                 users := mapSet sock user' st.users },
       [Ev.playerBingoCardToAdmin adminTarget idOrSock user.username card])
    else (st, [Ev.errorMsg sock "Invalid request"])
  | _, _ => (st, [Ev.errorMsg sock "Invalid request"])

/-- The `game:drawNumber` handler.  `pick` is the output of the rejection-
sampling `do … while` loop; `now` is `Date.now()` at handling time. -/
def drawNumberStep (sock : String) (pick now : Nat) (st : ServerState) :
    ServerState × List Ev :=
  match mapGet sock st.users with
  | none => (st, [Ev.errorMsg sock "Only room admin can draw numbers"])
  | some user =>
    if user.isAdmin then
      match user.roomId with
      | none => (st, [Ev.errorMsg sock "Only room admin can draw numbers"])
      | some rid =>
        if rid = "" then (st, [Ev.errorMsg sock "Only room admin can draw numbers"])
        else
          match mapGet rid st.rooms with
          | none => (st, [Ev.errorMsg sock "Room not found"])
          | some room =>
            if room.gameOver then
              (st, [Ev.errorMsg sock "Game is over! A winner has been declared."])
            else if 90 ≤ room.drawnNumbers.card then
              (st, [Ev.errorMsg sock "All numbers have been drawn!"])
            else
              let room' := { room with drawnNumbers := insert pick room.drawnNumbers }
              ({ st with rooms := mapSet rid room' st.rooms },
               [Ev.numberDrawn rid pick (now + 500)
                  (sortedDraws room'.drawnNumbers)])
    else (st, [Ev.errorMsg sock "Only room admin can draw numbers"])

/-- `if (!room.gameOver) { room.gameOver = true; room.winner = ... }` with the
first collected completion of the pass. -/
def markWinner (c : Completion) (room1 : Room) : Room :=
  if room1.gameOver then room1
  else { room1 with gameOver := true, winner := some c.playerName }

/-- `if (!room.winnerInfo) room.winnerInfo = {...}` with the first collected
completion of the pass (the snapshot looks the winner's card up in
`playerData`). -/
def setWinnerInfo (c : Completion) (room2 : Room) : Room :=
  match room2.winnerInfo with
  | some _ => room2
  | none =>
    let wi : WinnerInfo :=
      { playerId := c.playerId, playerName := c.playerName,
        rowNumber := c.rowNumber, numbers := c.numbers,
        bingoCard := (mapGet c.playerId room2.playerData).bind (fun p => p.bingoCard) }
    { room2 with winnerInfo := some wi }

/-- The room mutations of one win-check pass: record the notified rows and,
when the pass collected anything, finish the game and fix the winner. -/
def winCheckRoomUpdate (room : Room) : Room :=
  match checkPlayersForCompletedRows room with
  | (newCompleted, []) => { room with completedRows := newCompleted }
  | (newCompleted, c :: _) =>
    setWinnerInfo c (markWinner c ({ room with completedRows := newCompleted }))

/-- The body of the win-check `setTimeout` scheduled by a draw: mutate the room
and broadcast one `game:rowCompleted` per freshly collected completion.  A
timer whose room has been removed from the registry only mutates the captured,
now unreachable room object and is a registry no-op. -/
def winCheckStep (rid : String) (st : ServerState) : ServerState × List Ev :=
  match mapGet rid st.rooms with
  | none => (st, [])
  | some room =>
    ({ st with rooms := mapSet rid (winCheckRoomUpdate room) st.rooms },
     (checkPlayersForCompletedRows room).2.map (fun cr =>
       Ev.rowCompleted rid cr.playerId cr.playerName cr.rowNumber cr.numbers))

/-- The history summary built by the `room:close` handler. -/
def roomSummary (room : Room) (wi : WinnerInfo) (now : Nat) : HistRecord :=
  { roomId := room.roomId, createdAt := room.createdAt, closedAt := now,
    winner := wi.playerName, winnerRowNumber := wi.rowNumber,
    winnerNumbers := wi.numbers, winnerBingoCard := wi.bingoCard,
    totalPlayers := room.playerData.length,
    totalNumbersDrawn := room.drawnNumbers.card }

/-- The authorization test of the first `room:close` branch: the requester is
an admin user whose connection id equals the room's recorded creator id
`adminId` (which rebinding never updates). -/
def isCreatorAdminReq (st : ServerState) (sock : String) (room : Room) : Bool :=
  match mapGet sock st.users with
  | some u => u.isAdmin && (room.adminId == u.userId)
  | none => false

/-- The `room:close` handler.  The first branch admits the recorded creator
admin; the second accepts any connection once the game is over; otherwise the
request is a silent no-op. -/
def roomCloseStep (sock rid : String) (now : Nat) (st : ServerState) :
    ServerState × List Ev :=
  match mapGet rid st.rooms with
  | none => (st, [Ev.errorMsg sock "Room not found"])
  | some room =>
    if isCreatorAdminReq st sock room then
      let hist' :=
        if room.gameOver then
          match room.winnerInfo with
          | some wi => addRoomToHistory st.maxHistorySize st.history (roomSummary room wi now)
          | none => st.history
        else st.history
      ({ st with rooms := mapDelete rid st.rooms, history := hist' },
       [Ev.roomClosed rid "Room has been closed"])
    else if room.gameOver then
      let hist' :=
        match room.winnerInfo with
        | some wi => addRoomToHistory st.maxHistorySize st.history (roomSummary room wi now)
        | none => st.history
      ({ st with rooms := mapDelete rid st.rooms, history := hist' },
       [Ev.roomClosed rid "Game is over. Room is closing."])
    else (st, [])

/-- `room.players.delete(socket.id)` at the start of the disconnect handler's
room block. -/
def dropSock (sock : String) (room : Room) : Room :=
  { room with players := room.players.erase sock }

/-- The room left behind by a player disconnect: the player's profile (when
present) keeps its data but loses its socket reference. -/
def playerLeftRoom (sock pid : String) (room : Room) : Room :=
  match mapGet pid room.playerData with
  | some pd =>
    let pd' : PlayerData := { pd with socketId := none }
    { dropSock sock room with playerData := mapSet pid pd' room.playerData }
  | none => dropSock sock room

/-- The `disconnect` handler. -/
def disconnectStep (sock : String) (st : ServerState) : ServerState × List Ev :=
  match mapGet sock st.users with
  | none => ({ st with users := mapDelete sock st.users }, [])
  | some user =>
    match user.roomId with
    | none => ({ st with users := mapDelete sock st.users }, [])
    | some rid =>
      match mapGet rid st.rooms with
      | none => ({ st with users := mapDelete sock st.users }, [])
      | some room =>
        if user.isAdmin && (room.adminSocketId == some sock || room.adminId == sock) then
          ({ st with rooms := mapSet rid ({ dropSock sock room with
                       adminSocketId := none }) st.rooms,
                     users := mapDelete sock st.users }, [])
        else
          match user.playerId with
          | some pid =>
            if pid = "" then
              ({ st with rooms := mapSet rid (dropSock sock room) st.rooms,
                         users := mapDelete sock st.users }, [])
            else
              let room' := playerLeftRoom sock pid room
              ({ st with rooms := mapSet rid room' st.rooms,
                         users := mapDelete sock st.users },
               Ev.playerLeft rid room'.players.card pid user.username
                 :: sendPlayersListToAdmin room')
          | none =>
            ({ st with rooms := mapSet rid (dropSock sock room) st.rooms,
                       users := mapDelete sock st.users }, [])

/-! ### The operation alphabet and the step function -/

/-- One inbound event, with the handler's nondeterministic inputs made
explicit (`freshCode`/`freshPlayerId`/`pick` are the generator outputs,
`now` is the clock). -/
inductive Op where
  | adminLogin (sock username password : String)
  | roomCreate (sock : String) (dataRoomId : Option String) (freshCode : String) (now : Nat)
  | roomJoin (sock rid playerName : String) (sessionId : Option String) (freshPlayerId : String)
  | playerBingoCard (sock rid : String) (card : Card) (pidOpt : Option String)
  | drawNumber (sock : String) (pick now : Nat)
  | winCheck (rid : String)
  | roomClose (sock rid : String) (now : Nat)
  | disconnect (sock : String)
deriving DecidableEq

/-- Apply one operation. -/
def step (st : ServerState) : Op → ServerState × List Ev
  | .adminLogin s u p => adminLoginStep s u p st
  | .roomCreate s d f n => roomCreateStep s d f n st
  | .roomJoin s r n sid f => roomJoinStep s r n sid f st
  | .playerBingoCard s r c p => playerBingoCardStep s r c p st
  | .drawNumber s pick n => drawNumberStep s pick n st
  | .winCheck r => winCheckStep r st
  | .roomClose s r n => roomCloseStep s r n st
  | .disconnect s => disconnectStep s st

/-- The alphabet (`chars`) of `generateRoomCode`. -/
def roomCodeAlphabet : List Char :=
  "ABCDEFGHIJKLMNOPQRSTUVWXYZ0123456789".data

/-- Postcondition of the `generateRoomCode` loop: 6 characters, each from the
alphabet. -/
def isGeneratedCode (code : String) : Bool :=
  code.length == 6 && code.data.all (fun c => roomCodeAlphabet.contains c)

/-- What the source's generation loops guarantee about an operation's
nondeterministic inputs at the state where it fires: the fresh room code is a
6-character alphanumeric code unused by any live room, and — whenever the
draw guards pass so that the sampling loop actually runs — the drawn `pick`
lies in `[1, 90]` and outside the room's drawn set. -/
def opOk (st : ServerState) : Op → Bool
  | .roomCreate _ _ fresh _ => isGeneratedCode fresh && !(mapHas fresh st.rooms)
  | .drawNumber sock pick _ =>
    (match mapGet sock st.users with
     | some u =>
       if u.isAdmin then
         (match u.roomId with
          | some rid =>
            if rid = "" then true
            else
              (match mapGet rid st.rooms with
               | some room =>
                 if !room.gameOver && decide (room.drawnNumbers.card < 90) then
                   decide (1 ≤ pick) && decide (pick ≤ 90)
                     && !(decide (pick ∈ room.drawnNumbers))
                 else true
               | none => true)
          | none => true)
       else true
     | none => true)
  | _ => true

/-- Run a list of operations, discarding events. -/
def runOps (st : ServerState) : List Op → ServerState
  | [] => st
  | op :: ops => runOps (step st op).1 ops

/-- The state at server start: empty registries, empty history. -/
def initState : ServerState :=
  { rooms := [], users := [], history := [], maxHistorySize := 1000 }

/-- Every `users` entry is keyed by its own `userId` (the handlers only ever
store a user under its socket id). -/
def usersConsistent (st : ServerState) : Bool :=
  st.users.all (fun p => p.2.userId == p.1)

/-! ### Association-list lemmas -/

theorem mapGet_mapSet {α : Type} (k q : String) (v : α) (m : List (String × α)) :
    mapGet q (mapSet k v m) = if k = q then some v else mapGet q m := by
  induction m with
  | nil => simp [mapGet, mapSet]
  | cons p rest ih =>
    obtain ⟨a, b⟩ := p
    by_cases hak : a = k
    · by_cases haq : a = q
      · have hkq : k = q := hak.symm.trans haq
        simp [mapGet, mapSet, hak, haq, hkq]
      · have hkq : ¬k = q := fun h => haq (hak.trans h)
        simp [mapGet, mapSet, hak, haq, hkq]
    · by_cases haq : a = q
      · have hkq : ¬k = q := fun h => hak (haq.trans h.symm)
        have hqk : ¬q = k := fun h => hak (haq.trans h)
        simp [mapGet, mapSet, hak, haq, hkq, hqk]
      · simp [mapGet, mapSet, hak, haq, ih]

theorem mapGet_mapDelete {α : Type} (k q : String) (m : List (String × α)) :
    mapGet q (mapDelete k m) = if k = q then none else mapGet q m := by
  induction m with
  | nil => simp [mapGet, mapDelete]
  | cons p rest ih =>
    obtain ⟨a, b⟩ := p
    by_cases hak : a = k
    · by_cases haq : a = q
      · have hkq : k = q := hak.symm.trans haq
        subst hkq
        simp [mapGet, mapDelete, hak, ih]
      · have hkq : ¬k = q := fun h => haq (hak.trans h)
        simp [mapGet, mapDelete, hak, haq, hkq, ih]
    · by_cases haq : a = q
      · have hkq : ¬k = q := fun h => hak (haq.trans h.symm)
        have hqk : ¬q = k := fun h => hak (haq.trans h)
        simp [mapGet, mapDelete, hak, haq, hkq, hqk]
      · simp [mapGet, mapDelete, hak, haq, ih]

theorem mem_mapSet {α : Type} {k : String} {v : α} {m : List (String × α)}
    {p : String × α} (h : p ∈ mapSet k v m) : p = (k, v) ∨ p ∈ m := by
  induction m with
  | nil =>
    simp only [mapSet, List.mem_singleton] at h
    exact Or.inl h
  | cons q rest ih =>
    obtain ⟨a, b⟩ := q
    by_cases hak : a = k
    · simp only [mapSet, if_pos hak, List.mem_cons] at h
      rcases h with h | h
      · exact Or.inl h
      · exact Or.inr (List.mem_cons_of_mem _ h)
    · simp only [mapSet, if_neg hak, List.mem_cons] at h
      rcases h with h | h
      · exact Or.inr (h ▸ List.mem_cons_self _ _)
      · rcases ih h with h' | h'
        · exact Or.inl h'
        · exact Or.inr (List.mem_cons_of_mem _ h')

theorem mem_mapDelete {α : Type} {k : String} {m : List (String × α)}
    {p : String × α} (h : p ∈ mapDelete k m) : p ∈ m := by
  induction m with
  | nil => simp [mapDelete] at h
  | cons q rest ih =>
    obtain ⟨a, b⟩ := q
    by_cases hak : a = k
    · simp only [mapDelete, if_pos hak] at h
      exact List.mem_cons_of_mem _ (ih h)
    · simp only [mapDelete, if_neg hak, List.mem_cons] at h
      rcases h with h | h
      · exact h ▸ List.mem_cons_self _ _
      · exact List.mem_cons_of_mem _ (ih h)

theorem mapGet_mem {α : Type} {k : String} {v : α} {m : List (String × α)}
    (h : mapGet k m = some v) : (k, v) ∈ m := by
  induction m with
  | nil => simp [mapGet] at h
  | cons q rest ih =>
    obtain ⟨a, b⟩ := q
    by_cases hak : a = k
    · simp only [mapGet, if_pos hak] at h
      subst hak
      obtain rfl : b = v := Option.some.inj h
      exact List.mem_cons_self _ _
    · simp only [mapGet, if_neg hak] at h
      exact List.mem_cons_of_mem _ (ih h)

theorem length_mapSet_of_has {α : Type} {k : String} (v : α) {m : List (String × α)}
    (h : mapHas k m = true) : (mapSet k v m).length = m.length := by
  induction m with
  | nil => simp [mapHas, mapGet] at h
  | cons q rest ih =>
    obtain ⟨a, b⟩ := q
    by_cases hak : a = k
    · simp [mapSet, if_pos hak]
    · simp only [mapHas, mapGet, if_neg hak] at h
      simp [mapSet, if_neg hak, ih h]

theorem usersConsistent_get {st : ServerState} {sock : String} {u : User}
    (hc : usersConsistent st = true) (hg : mapGet sock st.users = some u) :
    u.userId = sock := by
  have hmem := mapGet_mem hg
  have := List.all_eq_true.mp hc _ hmem
  exact eq_of_beq this

/-! ### Win-detector lemmas -/

theorem checkRowsPlayer_spec (pid uname : String) (drawn : Finset Nat) :
    ∀ (rows : List (List (Option Nat))) (idx : Nat) (acc : Finset (String × Nat)),
      acc ⊆ (checkRowsPlayer pid uname drawn rows idx acc).1
      ∧ (∀ c ∈ (checkRowsPlayer pid uname drawn rows idx acc).2,
          keyOf c ∉ acc ∧ keyOf c ∈ (checkRowsPlayer pid uname drawn rows idx acc).1)
      ∧ ((checkRowsPlayer pid uname drawn rows idx acc).2.map keyOf).Nodup := by
  intro rows
  induction rows with
  | nil => intro idx acc; simp [checkRowsPlayer]
  | cons row rest ih =>
    intro idx acc
    simp only [checkRowsPlayer]
    cases hrc : checkRowComplete row drawn with
    | none => exact ih (idx + 1) acc
    | some nums =>
      by_cases hmem : (pid, idx) ∈ acc
      · simp only [if_pos hmem]
        exact ih (idx + 1) acc
      · simp only [if_neg hmem]
        obtain ⟨h1, h2, h3⟩ := ih (idx + 1) (insert (pid, idx) acc)
        have hkey : keyOf ⟨pid, uname, idx + 1, nums⟩ = (pid, idx) := by
          simp [keyOf]
        refine ⟨fun x hx => h1 (Finset.mem_insert_of_mem hx), ?_, ?_⟩
        · intro c hc
          rcases List.mem_cons.mp hc with hceq | hcrest
          · subst hceq
            rw [hkey]
            exact ⟨hmem, h1 (Finset.mem_insert_self _ _)⟩
          · have hc2 := h2 c hcrest
            exact ⟨fun hk => hc2.1 (Finset.mem_insert_of_mem hk), hc2.2⟩
        · simp only [List.map_cons, List.nodup_cons, hkey]
          refine ⟨?_, h3⟩
          intro hmem'
          obtain ⟨c, hc, hkc⟩ := List.mem_map.mp hmem'
          exact (h2 c hc).1 (hkc ▸ Finset.mem_insert_self (pid, idx) acc)

theorem checkAllPlayers_spec (drawn : Finset Nat) :
    ∀ (l : List (String × PlayerData)) (acc : Finset (String × Nat)),
      acc ⊆ (checkAllPlayers drawn l acc).1
      ∧ (∀ c ∈ (checkAllPlayers drawn l acc).2,
          keyOf c ∉ acc ∧ keyOf c ∈ (checkAllPlayers drawn l acc).1)
      ∧ ((checkAllPlayers drawn l acc).2.map keyOf).Nodup := by
  intro l
  induction l with
  | nil => intro acc; simp [checkAllPlayers]
  | cons p rest ih =>
    obtain ⟨pid, pd⟩ := p
    intro acc
    simp only [checkAllPlayers]
    cases hbc : pd.bingoCard with
    | none => exact ih acc
    | some card =>
      by_cases hlen : card.length = 0
      · simp only [if_pos hlen]
        exact ih acc
      · simp only [if_neg hlen]
        obtain ⟨a1, a2, a3⟩ := checkRowsPlayer_spec pid pd.username drawn card 0 acc
        obtain ⟨b1, b2, b3⟩ := ih (checkRowsPlayer pid pd.username drawn card 0 acc).1
        refine ⟨fun x hx => b1 (a1 hx), ?_, ?_⟩
        · intro c hc
          rcases List.mem_append.mp hc with h | h
          · obtain ⟨n1, n2⟩ := a2 c h
            exact ⟨n1, b1 n2⟩
          · obtain ⟨n1, n2⟩ := b2 c h
            exact ⟨fun hk => n1 (a1 hk), n2⟩
        · rw [List.map_append]
          refine List.Nodup.append a3 b3 ?_
          intro x hx1 hx2
          obtain ⟨c1, hc1, hk1⟩ := List.mem_map.mp hx1
          obtain ⟨c2, hc2, hk2⟩ := List.mem_map.mp hx2
          exact (b2 c2 hc2).1 (hk2 ▸ hk1 ▸ (a2 c1 hc1).2)

/-! ### How one step changes the room registry -/

/-- How a room value found in the registry after a step relates to what the
same key held before the step: an over game stays over, the notified-rows set
only grows, and the drawn set either stays put or gains one fresh in-range
number (the latter only with room to spare); a key that was previously free
can only receive a completely fresh room. -/
def RoomEvolves : Option Room → Room → Prop
  | none, R => R.drawnNumbers = ∅ ∧ R.gameOver = false ∧ R.completedRows = ∅
  | some r, R =>
      (r.gameOver = true → R.gameOver = true)
      ∧ r.completedRows ⊆ R.completedRows
      ∧ (R.drawnNumbers = r.drawnNumbers
         ∨ ∃ p, 1 ≤ p ∧ p ≤ 90 ∧ p ∉ r.drawnNumbers
             ∧ R.drawnNumbers = insert p r.drawnNumbers
             ∧ r.drawnNumbers.card < 90)

/-- After one operation the registry is unchanged, or one key was written
with an evolved room, or one key was deleted. -/
inductive RoomsChange (pre : List (String × Room)) : List (String × Room) → Prop
  | same : RoomsChange pre pre
  | set (rid : String) (R : Room) (h : RoomEvolves (mapGet rid pre) R) :
      RoomsChange pre (mapSet rid R pre)
  | del (rid : String) : RoomsChange pre (mapDelete rid pre)

theorem roomEvolves_refl (r : Room) : RoomEvolves (some r) r :=
  ⟨fun h => h, Finset.Subset.refl _, Or.inl rfl⟩

theorem markWinner_gameOver_of (c : Completion) (r : Room) (h : r.gameOver = true) :
    markWinner c r = r := by
  unfold markWinner
  rw [if_pos h]

theorem markWinner_completedRows (c : Completion) (r : Room) :
    (markWinner c r).completedRows = r.completedRows := by
  unfold markWinner
  split <;> rfl

theorem markWinner_drawn (c : Completion) (r : Room) :
    (markWinner c r).drawnNumbers = r.drawnNumbers := by
  unfold markWinner
  split <;> rfl

theorem setWinnerInfo_gameOver (c : Completion) (r : Room) :
    (setWinnerInfo c r).gameOver = r.gameOver := by
  unfold setWinnerInfo
  split <;> rfl

theorem setWinnerInfo_completedRows (c : Completion) (r : Room) :
    (setWinnerInfo c r).completedRows = r.completedRows := by
  unfold setWinnerInfo
  split <;> rfl

theorem setWinnerInfo_drawn (c : Completion) (r : Room) :
    (setWinnerInfo c r).drawnNumbers = r.drawnNumbers := by
  unfold setWinnerInfo
  split <;> rfl

theorem playerLeftRoom_gameOver (sock pid : String) (room : Room) :
    (playerLeftRoom sock pid room).gameOver = room.gameOver := by
  unfold playerLeftRoom
  split <;> rfl

theorem playerLeftRoom_completedRows (sock pid : String) (room : Room) :
    (playerLeftRoom sock pid room).completedRows = room.completedRows := by
  unfold playerLeftRoom
  split <;> rfl

theorem playerLeftRoom_drawn (sock pid : String) (room : Room) :
    (playerLeftRoom sock pid room).drawnNumbers = room.drawnNumbers := by
  unfold playerLeftRoom
  split <;> rfl

theorem winCheckRoomUpdate_evolves (room : Room) :
    RoomEvolves (some room) (winCheckRoomUpdate room) := by
  have hsub : room.completedRows ⊆ (checkPlayersForCompletedRows room).1 :=
    (checkAllPlayers_spec room.drawnNumbers room.playerData room.completedRows).1
  unfold winCheckRoomUpdate
  cases hres : checkPlayersForCompletedRows room with
  | mk newCompleted cs =>
    rw [hres] at hsub
    cases cs with
    | nil => exact ⟨fun h => h, hsub, Or.inl rfl⟩
    | cons c rest =>
      refine ⟨?_, ?_, ?_⟩
      · intro h
        rw [setWinnerInfo_gameOver,
          markWinner_gameOver_of c { room with completedRows := newCompleted } h]
        exact h
      · rw [setWinnerInfo_completedRows, markWinner_completedRows]
        exact hsub
      · exact Or.inl (by rw [setWinnerInfo_drawn, markWinner_drawn])

theorem adminLogin_roomsChange (s u p : String) (st : ServerState) :
    RoomsChange st.rooms (adminLoginStep s u p st).1.rooms := by
  unfold adminLoginStep
  split <;> exact RoomsChange.same

theorem roomCreate_roomsChange (sock : String) (d : Option String) (fresh : String)
    (now : Nat) (st : ServerState)
    (hok : opOk st (Op.roomCreate sock d fresh now) = true) :
    RoomsChange st.rooms (roomCreateStep sock d fresh now st).1.rooms := by
  have hget : mapGet fresh st.rooms = none := by
    cases h : mapGet fresh st.rooms with
    | none => rfl
    | some r =>
      rw [opOk, mapHas, h] at hok
      simp at hok
  have hfresh : ∀ u1, RoomsChange st.rooms (createFreshRoom sock u1 fresh now st).1.rooms := by
    intro u1
    have hev : RoomEvolves (mapGet fresh st.rooms) (freshRoom sock fresh now) := by
      rw [hget]
      exact ⟨rfl, rfl, rfl⟩
    exact RoomsChange.set fresh _ hev
  unfold roomCreateStep
  cases hu : mapGet sock st.users with
  | none => exact RoomsChange.same
  | some user0 =>
    by_cases hA : user0.isAdmin = true
    · simp only [if_pos hA]
      cases d with
      | none => exact hfresh _
      | some rid =>
        by_cases hrid : rid = ""
        · simp only [if_pos hrid]
          exact hfresh _
        · simp only [if_neg hrid]
          cases hr : mapGet rid st.rooms with
          | none => exact hfresh _
          | some room =>
            by_cases hslot : room.adminSocketId = none
            · simp only [if_pos hslot]
              refine RoomsChange.set rid _ ?_
              rw [hr]
              exact ⟨fun h => h, Finset.Subset.refl _, Or.inl rfl⟩
            · simp only [if_neg hslot]
              exact hfresh _
    · simp only [if_neg hA]
      exact RoomsChange.same

theorem roomJoin_roomsChange (sock rid playerName : String) (sessionId : Option String)
    (fresh : String) (st : ServerState) :
    RoomsChange st.rooms (roomJoinStep sock rid playerName sessionId fresh st).1.rooms := by
  unfold roomJoinStep
  cases hr : mapGet rid st.rooms with
  | none => exact RoomsChange.same
  | some room =>
    by_cases htrim : trimChars playerName = ""
    · simp only [if_pos htrim]
      exact RoomsChange.same
    · simp only [if_neg htrim]
      by_cases hclash : nameClash room sessionId (trimChars playerName) = true
      · simp only [if_pos hclash]
        exact RoomsChange.same
      · simp only [if_neg hclash]
        refine RoomsChange.set rid _ ?_
        rw [hr]
        exact ⟨fun h => h, Finset.Subset.refl _, Or.inl rfl⟩

theorem playerBingoCard_roomsChange (sock rid : String) (card : Card)
    (pidOpt : Option String) (st : ServerState) :
    RoomsChange st.rooms (playerBingoCardStep sock rid card pidOpt st).1.rooms := by
  unfold playerBingoCardStep
  cases hu : mapGet sock st.users with
  | none =>
    cases hr : mapGet rid st.rooms with
    | none => exact RoomsChange.same
    | some room => exact RoomsChange.same
  | some user =>
    cases hr : mapGet rid st.rooms with
    | none => exact RoomsChange.same
    | some room =>
      by_cases hmem : sock ∈ room.players
      · simp only [if_pos hmem]
        refine RoomsChange.set rid _ ?_
        rw [hr]
        exact ⟨fun h => h, Finset.Subset.refl _, Or.inl rfl⟩
      · simp only [if_neg hmem]
        exact RoomsChange.same

theorem drawNumber_roomsChange (sock : String) (pick now : Nat) (st : ServerState)
    (hok : opOk st (Op.drawNumber sock pick now) = true) :
    RoomsChange st.rooms (drawNumberStep sock pick now st).1.rooms := by
  unfold drawNumberStep
  cases hu : mapGet sock st.users with
  | none => exact RoomsChange.same
  | some user =>
    by_cases hA : user.isAdmin = true
    · simp only [if_pos hA]
      cases hrid : user.roomId with
      | none => exact RoomsChange.same
      | some rid =>
        by_cases hne : rid = ""
        · simp only [if_pos hne]
          exact RoomsChange.same
        · simp only [if_neg hne]
          cases hr : mapGet rid st.rooms with
          | none => exact RoomsChange.same
          | some room =>
            by_cases hgo : room.gameOver = true
            · simp only [if_pos hgo]
              exact RoomsChange.same
            · simp only [if_neg hgo]
              by_cases hfull : 90 ≤ room.drawnNumbers.card
              · simp only [if_pos hfull]
                exact RoomsChange.same
              · simp only [if_neg hfull]
                have hgo' : room.gameOver = false := by
                  cases h : room.gameOver
                  · rfl
                  · exact absurd h hgo
                have hprops : 1 ≤ pick ∧ pick ≤ 90 ∧ pick ∉ room.drawnNumbers := by
                  rw [opOk] at hok
                  simp only [hu, if_pos hA, hrid, if_neg hne, hr, hgo',
                    Bool.not_false, Bool.true_and] at hok
                  rw [if_pos (by simpa using Nat.lt_of_not_le hfull)] at hok
                  simp only [Bool.and_eq_true, Bool.not_eq_true',
                    decide_eq_true_eq, decide_eq_false_iff_not] at hok
                  exact ⟨hok.1.1, hok.1.2, hok.2⟩
                refine RoomsChange.set rid _ ?_
                rw [hr]
                exact ⟨fun h => h, Finset.Subset.refl _,
                  Or.inr ⟨pick, hprops.1, hprops.2.1, hprops.2.2, rfl,
                    Nat.lt_of_not_le hfull⟩⟩
    · simp only [if_neg hA]
      exact RoomsChange.same

theorem winCheck_roomsChange (rid : String) (st : ServerState) :
    RoomsChange st.rooms (winCheckStep rid st).1.rooms := by
  unfold winCheckStep
  cases hr : mapGet rid st.rooms with
  | none => exact RoomsChange.same
  | some room =>
    refine RoomsChange.set rid _ ?_
    rw [hr]
    exact winCheckRoomUpdate_evolves room

theorem roomClose_roomsChange (sock rid : String) (now : Nat) (st : ServerState) :
    RoomsChange st.rooms (roomCloseStep sock rid now st).1.rooms := by
  unfold roomCloseStep
  cases hr : mapGet rid st.rooms with
  | none => exact RoomsChange.same
  | some room =>
    by_cases hca : isCreatorAdminReq st sock room = true
    · simp only [if_pos hca]
      exact RoomsChange.del rid
    · simp only [if_neg hca]
      by_cases hgo : room.gameOver = true
      · simp only [if_pos hgo]
        exact RoomsChange.del rid
      · simp only [if_neg hgo]
        exact RoomsChange.same

theorem disconnect_roomsChange (sock : String) (st : ServerState) :
    RoomsChange st.rooms (disconnectStep sock st).1.rooms := by
  unfold disconnectStep
  cases hu : mapGet sock st.users with
  | none => exact RoomsChange.same
  | some user =>
    cases hrid : user.roomId with
    | none =>
      simp only [hrid]
      exact RoomsChange.same
    | some rid =>
      simp only [hrid]
      cases hr : mapGet rid st.rooms with
      | none =>
        simp only [hr]
        exact RoomsChange.same
      | some room =>
        simp only [hr]
        have hset : ∀ R : Room, R.gameOver = room.gameOver →
            R.completedRows = room.completedRows → R.drawnNumbers = room.drawnNumbers →
            RoomsChange st.rooms (mapSet rid R st.rooms) := by
          intro R h1 h2 h3
          refine RoomsChange.set rid R ?_
          rw [hr]
          exact ⟨fun h => h1.symm ▸ h, h2 ▸ Finset.Subset.refl _, Or.inl h3⟩
        by_cases hadm :
            (user.isAdmin && (room.adminSocketId == some sock || room.adminId == sock)) = true
        · simp only [if_pos hadm]
          exact hset _ rfl rfl rfl
        · simp only [if_neg hadm]
          cases hpid : user.playerId with
          | none =>
            simp only [hpid]
            exact hset _ rfl rfl rfl
          | some pid =>
            simp only [hpid]
            by_cases hpe : pid = ""
            · simp only [if_pos hpe]
              exact hset _ rfl rfl rfl
            · simp only [if_neg hpe]
              exact hset _ (playerLeftRoom_gameOver sock pid room)
                (playerLeftRoom_completedRows sock pid room)
                (playerLeftRoom_drawn sock pid room)

/-- Master lemma: any single operation whose nondeterministic inputs satisfy
the generators' postconditions changes the room registry by at most one
evolved write or one deletion. -/
theorem step_roomsChange (st : ServerState) (op : Op) (hok : opOk st op = true) :
    RoomsChange st.rooms (step st op).1.rooms := by
  cases op with
  | adminLogin s u p => exact adminLogin_roomsChange s u p st
  | roomCreate s d f n => exact roomCreate_roomsChange s d f n st hok
  | roomJoin s r n sid f => exact roomJoin_roomsChange s r n sid f st
  | playerBingoCard s r c p => exact playerBingoCard_roomsChange s r c p st
  | drawNumber s pick n => exact drawNumber_roomsChange s pick n st hok
  | winCheck r => exact winCheck_roomsChange r st
  | roomClose s r n => exact roomClose_roomsChange s r n st
  | disconnect s => exact disconnect_roomsChange s st

/-- Reading a key after a registry change: either the key already held a room
that evolved into the new value, or the key was fresh and received a fresh
room. -/
theorem roomsChange_get {pre post : List (String × Room)} (h : RoomsChange pre post)
    (rid : String) (r' : Room) (hpost : mapGet rid post = some r') :
    (∃ r, mapGet rid pre = some r ∧ RoomEvolves (some r) r')
    ∨ (mapGet rid pre = none ∧ RoomEvolves none r') := by
  cases h with
  | same => exact Or.inl ⟨r', hpost, roomEvolves_refl r'⟩
  | set rid0 R hev =>
    rw [mapGet_mapSet] at hpost
    by_cases he : rid0 = rid
    · rw [if_pos he] at hpost
      obtain rfl : R = r' := Option.some.inj hpost
      rw [he] at hev
      cases hg : mapGet rid pre with
      | none =>
        rw [hg] at hev
        exact Or.inr ⟨rfl, hev⟩
      | some r =>
        rw [hg] at hev
        exact Or.inl ⟨r, rfl, hev⟩
    · rw [if_neg he] at hpost
      exact Or.inl ⟨r', hpost, roomEvolves_refl r'⟩
  | del rid0 =>
    rw [mapGet_mapDelete] at hpost
    by_cases he : rid0 = rid
    · rw [if_pos he] at hpost
      exact absurd hpost (by simp)
    · rw [if_neg he] at hpost
      exact Or.inl ⟨r', hpost, roomEvolves_refl r'⟩

/-- The drawn-number sampling loop's postcondition, extracted from `opOk` at
a state where the draw guards pass. -/
theorem opOk_draw_props {st : ServerState} {sock : String} {pick now : Nat}
    {u : User} {rid : String} {room : Room}
    (hok : opOk st (Op.drawNumber sock pick now) = true)
    (hu : mapGet sock st.users = some u) (hA : u.isAdmin = true)
    (hroomId : u.roomId = some rid) (hne : rid ≠ "")
    (hr : mapGet rid st.rooms = some room) (hgo : room.gameOver = false)
    (hlt : room.drawnNumbers.card < 90) :
    1 ≤ pick ∧ pick ≤ 90 ∧ pick ∉ room.drawnNumbers := by
  rw [opOk] at hok
  simp only [hu, if_pos hA, hroomId, if_neg hne, hr, hgo, Bool.not_false,
    Bool.true_and] at hok
  rw [if_pos (by simpa using hlt)] at hok
  simp only [Bool.and_eq_true, Bool.not_eq_true', decide_eq_true_eq,
    decide_eq_false_iff_not] at hok
  exact ⟨hok.1.1, hok.1.2, hok.2⟩

/-! ### Events emitted by the non-win-check handlers -/

/-- The identifying key of a `game:rowCompleted` event. -/
def rowKey : Ev → Option (String × String × Nat)
  | .rowCompleted rid pid _ rn _ => some (rid, pid, rn - 1)
  | _ => none

/-- `evs` contains no `game:rowCompleted` event. -/
def noRowEvents (evs : List Ev) : Prop :=
  ∀ ev ∈ evs, rowKey ev = none

theorem noRow_nil : noRowEvents [] := by
  intro ev hev
  exact absurd hev (List.not_mem_nil ev)

theorem noRow_cons {ev0 : Ev} {l : List Ev} (h0 : rowKey ev0 = none)
    (hl : noRowEvents l) : noRowEvents (ev0 :: l) := by
  intro ev hev
  rcases List.mem_cons.mp hev with rfl | h
  · exact h0
  · exact hl ev h

theorem noRow_singleton {ev0 : Ev} (h0 : rowKey ev0 = none) : noRowEvents [ev0] :=
  noRow_cons h0 noRow_nil

theorem noRow_sendPlayersList (room : Room) :
    noRowEvents (sendPlayersListToAdmin room) := by
  unfold sendPlayersListToAdmin
  split
  · exact noRow_singleton rfl
  · exact noRow_nil

theorem filterMap_rowKey_nil {l : List Ev} (h : noRowEvents l) :
    l.filterMap rowKey = [] := by
  induction l with
  | nil => rfl
  | cons ev rest ih =>
    have h0 : rowKey ev = none := h ev (List.mem_cons_self _ _)
    have hr : noRowEvents rest := fun e he => h e (List.mem_cons_of_mem _ he)
    simp [List.filterMap_cons, h0, ih hr]

theorem adminLogin_noRow (s u p : String) (st : ServerState) :
    noRowEvents (adminLoginStep s u p st).2 := by
  unfold adminLoginStep
  split
  · exact noRow_singleton rfl
  · exact noRow_singleton rfl

theorem roomCreate_noRow (sock : String) (d : Option String) (fresh : String)
    (now : Nat) (st : ServerState) :
    noRowEvents (roomCreateStep sock d fresh now st).2 := by
  have hfresh : ∀ u1, noRowEvents (createFreshRoom sock u1 fresh now st).2 := by
    intro u1
    exact noRow_cons rfl (noRow_sendPlayersList _)
  unfold roomCreateStep
  cases hu : mapGet sock st.users with
  | none => exact noRow_singleton rfl
  | some user0 =>
    by_cases hA : user0.isAdmin = true
    · simp only [if_pos hA]
      cases d with
      | none => exact hfresh _
      | some rid =>
        by_cases hrid : rid = ""
        · simp only [if_pos hrid]
          exact hfresh _
        · simp only [if_neg hrid]
          cases hr : mapGet rid st.rooms with
          | none => exact hfresh _
          | some room =>
            by_cases hslot : room.adminSocketId = none
            · simp only [if_pos hslot]
              exact noRow_cons rfl (noRow_sendPlayersList _)
            · simp only [if_neg hslot]
              exact hfresh _
    · simp only [if_neg hA]
      exact noRow_singleton rfl

theorem roomJoin_noRow (sock rid playerName : String) (sessionId : Option String)
    (fresh : String) (st : ServerState) :
    noRowEvents (roomJoinStep sock rid playerName sessionId fresh st).2 := by
  unfold roomJoinStep
  cases hr : mapGet rid st.rooms with
  | none => exact noRow_singleton rfl
  | some room =>
    by_cases htrim : trimChars playerName = ""
    · simp only [if_pos htrim]
      exact noRow_singleton rfl
    · simp only [if_neg htrim]
      by_cases hclash : nameClash room sessionId (trimChars playerName) = true
      · simp only [if_pos hclash]
        exact noRow_singleton rfl
      · simp only [if_neg hclash]
        exact noRow_cons rfl (noRow_cons rfl (noRow_sendPlayersList _))

theorem playerBingoCard_noRow (sock rid : String) (card : Card)
    (pidOpt : Option String) (st : ServerState) :
    noRowEvents (playerBingoCardStep sock rid card pidOpt st).2 := by
  unfold playerBingoCardStep
  cases hu : mapGet sock st.users with
  | none =>
    cases hr : mapGet rid st.rooms with
    | none => exact noRow_singleton rfl
    | some room => exact noRow_singleton rfl
  | some user =>
    cases hr : mapGet rid st.rooms with
    | none => exact noRow_singleton rfl
    | some room =>
      by_cases hmem : sock ∈ room.players
      · simp only [if_pos hmem]
        exact noRow_singleton rfl
      · simp only [if_neg hmem]
        exact noRow_singleton rfl

theorem drawNumber_noRow (sock : String) (pick now : Nat) (st : ServerState) :
    noRowEvents (drawNumberStep sock pick now st).2 := by
  unfold drawNumberStep
  cases hu : mapGet sock st.users with
  | none => exact noRow_singleton rfl
  | some user =>
    by_cases hA : user.isAdmin = true
    · simp only [if_pos hA]
      cases hrid : user.roomId with
      | none => exact noRow_singleton rfl
      | some rid =>
        by_cases hne : rid = ""
        · simp only [if_pos hne]
          exact noRow_singleton rfl
        · simp only [if_neg hne]
          cases hr : mapGet rid st.rooms with
          | none => exact noRow_singleton rfl
          | some room =>
            by_cases hgo : room.gameOver = true
            · simp only [if_pos hgo]
              exact noRow_singleton rfl
            · simp only [if_neg hgo]
              by_cases hfull : 90 ≤ room.drawnNumbers.card
              · simp only [if_pos hfull]
                exact noRow_singleton rfl
              · simp only [if_neg hfull]
                exact noRow_singleton rfl
    · simp only [if_neg hA]
      exact noRow_singleton rfl

theorem roomClose_noRow (sock rid : String) (now : Nat) (st : ServerState) :
    noRowEvents (roomCloseStep sock rid now st).2 := by
  unfold roomCloseStep
  cases hr : mapGet rid st.rooms with
  | none => exact noRow_singleton rfl
  | some room =>
    by_cases hca : isCreatorAdminReq st sock room = true
    · simp only [if_pos hca]
      exact noRow_singleton rfl
    · simp only [if_neg hca]
      by_cases hgo : room.gameOver = true
      · simp only [if_pos hgo]
        exact noRow_singleton rfl
      · simp only [if_neg hgo]
        exact noRow_nil

theorem disconnect_noRow (sock : String) (st : ServerState) :
    noRowEvents (disconnectStep sock st).2 := by
  unfold disconnectStep
  cases hu : mapGet sock st.users with
  | none => exact noRow_nil
  | some user =>
    cases hrid : user.roomId with
    | none =>
      simp only [hrid]
      exact noRow_nil
    | some rid =>
      simp only [hrid]
      cases hr : mapGet rid st.rooms with
      | none =>
        simp only [hr]
        exact noRow_nil
      | some room =>
        simp only [hr]
        by_cases hadm :
            (user.isAdmin && (room.adminSocketId == some sock || room.adminId == sock)) = true
        · simp only [if_pos hadm]
          exact noRow_nil
        · simp only [if_neg hadm]
          cases hpid : user.playerId with
          | none =>
            simp only [hpid]
            exact noRow_nil
          | some pid =>
            simp only [hpid]
            by_cases hpe : pid = ""
            · simp only [if_pos hpe]
              exact noRow_nil
            · simp only [if_neg hpe]
              exact noRow_cons rfl (noRow_sendPlayersList _)

/-- The notified-rows set written by a win-check pass. -/
theorem winCheckRoomUpdate_completedRows (room : Room) :
    (winCheckRoomUpdate room).completedRows = (checkPlayersForCompletedRows room).1 := by
  unfold winCheckRoomUpdate
  cases hres : checkPlayersForCompletedRows room with
  | mk nc cs =>
    cases cs with
    | nil => rfl
    | cons c rest => rw [setWinnerInfo_completedRows, markWinner_completedRows]

theorem filterMap_rowKey_map (rid : String) (l : List Completion) :
    (l.map (fun cr =>
        Ev.rowCompleted rid cr.playerId cr.playerName cr.rowNumber cr.numbers)).filterMap
        rowKey
      = l.map (fun c => (rid, keyOf c)) := by
  induction l with
  | nil => rfl
  | cons c rest ih => simp [List.map_cons, List.filterMap_cons, rowKey, keyOf, ih]

/-! ### Concrete scenario fixtures -/

/-- A one-row card holding `[5, 12, 23, 41, 67]` (the spec's own scenario). -/
def wCard : Card := [[some 5, some 12, some 23, some 41, some 67]]

/-- Admin creates a room, Sam joins and submits `wCard`, all five numbers are
drawn, and the win check fires, finishing the game. -/
def wOverTrace : List Op :=
  [ .adminLogin "sockA" "admin" "admin123",
    .roomCreate "sockA" none "ROOMAA" 0,
    .roomJoin "sockP" "ROOMAA" "Sam" none "pid1",
    .playerBingoCard "sockP" "ROOMAA" wCard (some "pid1"),
    .drawNumber "sockA" 5 0, .drawNumber "sockA" 12 0, .drawNumber "sockA" 23 0,
    .drawNumber "sockA" 41 0, .drawNumber "sockA" 67 0,
    .winCheck "ROOMAA" ]

/-- The finished-game state reached by `wOverTrace`. -/
def wOverState : ServerState := runOps initState wOverTrace

/-! ### Claims -/

theorem checkRowComplete_isSome (row : List (Option Nat)) (drawn : Finset Nat) :
    (checkRowComplete row drawn).isSome = true ↔
      ((row.filterMap id).length = 5 ∧ ∀ n ∈ row.filterMap id, n ∈ drawn) := by
  unfold checkRowComplete
  by_cases hlen : row.length = 0
  · rw [if_pos hlen]
    have hrow : row = [] := List.length_eq_zero.mp hlen
    subst hrow
    simp
  · rw [if_neg hlen]
    by_cases hc : (∀ n ∈ row.filterMap id, n ∈ drawn) ∧ (row.filterMap id).length = 5
    · rw [if_pos hc]
      constructor
      · intro _
        exact ⟨hc.2, hc.1⟩
      · intro _
        rfl
    · rw [if_neg hc]
      constructor
      · intro h
        simp at h
      · intro hcontra
        exact absurd ⟨hcontra.2, hcontra.1⟩ hc

/-- **C1.**  For every card row and drawn set, `checkRowComplete` reports the
row complete iff every non-blank slot is a member of the drawn numbers and
the row has exactly the fixed full width (5) of non-blank slots; a row
missing even one of its numbers is never reported complete, and a fully
blank row is never reported complete. -/
theorem claim_C1_rowComplete (row : List (Option Nat)) (drawn : Finset Nat) :
    ((checkRowComplete row drawn).isSome = true ↔
       ((row.filterMap id).length = 5 ∧ ∀ n ∈ row.filterMap id, n ∈ drawn))
    ∧ ((∃ n ∈ row.filterMap id, n ∉ drawn) → checkRowComplete row drawn = none)
    ∧ (row.filterMap id = [] → checkRowComplete row drawn = none) := by
  refine ⟨checkRowComplete_isSome row drawn, ?_, ?_⟩
  · rintro ⟨n, hn, hnd⟩
    cases hck : checkRowComplete row drawn with
    | none => rfl
    | some v =>
      have hs := (checkRowComplete_isSome row drawn).mp (by rw [hck]; rfl)
      exact absurd (hs.2 n hn) hnd
  · intro hblank
    cases hck : checkRowComplete row drawn with
    | none => rfl
    | some v =>
      have hs := (checkRowComplete_isSome row drawn).mp (by rw [hck]; rfl)
      rw [hblank] at hs
      simp at hs

/-- Witness for C1 on the spec's scenario row. -/
theorem claim_C1_rowComplete_witness :
    ((checkRowComplete [some 5, some 12, some 23, some 41, some 67]
          ({5, 12, 23, 41, 67} : Finset Nat)).isSome = true ↔
       (([some 5, some 12, some 23, some 41, some 67].filterMap
            (id : Option Nat → Option Nat)).length = 5
        ∧ ∀ n ∈ [some 5, some 12, some 23, some 41, some 67].filterMap
            (id : Option Nat → Option Nat), n ∈ ({5, 12, 23, 41, 67} : Finset Nat)))
    ∧ ((∃ n ∈ [some 5, some 12, some 23, some 41, some 67].filterMap
          (id : Option Nat → Option Nat), n ∉ ({5, 12, 23, 41, 67} : Finset Nat)) →
        checkRowComplete [some 5, some 12, some 23, some 41, some 67]
          ({5, 12, 23, 41, 67} : Finset Nat) = none)
    ∧ ([some 5, some 12, some 23, some 41, some 67].filterMap
          (id : Option Nat → Option Nat) = [] →
        checkRowComplete [some 5, some 12, some 23, some 41, some 67]
          ({5, 12, 23, 41, 67} : Finset Nat) = none) :=
  claim_C1_rowComplete [some 5, some 12, some 23, some 41, some 67]
    ({5, 12, 23, 41, 67} : Finset Nat)

/-- **C2.**  `gameOver` is monotonic across every operation (whose
nondeterministic inputs satisfy the generators' postconditions), and once it
is set, a `drawNumber` request that resolves to that room — an admin user
whose bound room is that room — fails with the GameOver error and leaves the
whole state unchanged. -/
theorem claim_C2_gameOver_monotone_gates (st : ServerState) (op : Op) (rid : String)
    (hok : opOk st op = true)
    (hgo : (mapGet rid st.rooms).map (fun r => r.gameOver) = some true) :
    (∀ room', mapGet rid (step st op).1.rooms = some room' → room'.gameOver = true)
    ∧ (∀ sock pick now u, op = Op.drawNumber sock pick now →
        mapGet sock st.users = some u → u.isAdmin = true → u.roomId = some rid →
        rid ≠ "" →
        step st op = (st, [Ev.errorMsg sock "Game is over! A winner has been declared."])) := by
  cases hpre : mapGet rid st.rooms with
  | none => rw [hpre] at hgo; simp at hgo
  | some room =>
    rw [hpre] at hgo
    have hroomgo : room.gameOver = true := by
      simpa using hgo
    constructor
    · intro room' hpost
      rcases roomsChange_get (step_roomsChange st op hok) rid room' hpost with
        ⟨r0, hr0, hev⟩ | ⟨hnone, _⟩
      · obtain rfl : r0 = room := Option.some.inj (hr0.symm.trans hpre)
        exact hev.1 hroomgo
      · rw [hpre] at hnone
        exact absurd hnone (by simp)
    · intro sock pick now u hop hu hA hroomId hne
      subst hop
      show drawNumberStep sock pick now st = _
      unfold drawNumberStep
      simp only [hu, if_pos hA, hroomId, if_neg hne, hpre, if_pos hroomgo]

/-- Witness for C2: in the finished `wOverState`, a further draw by the admin
is gated. -/
theorem claim_C2_gameOver_monotone_gates_witness :
    (∀ room', mapGet "ROOMAA" (step wOverState (Op.drawNumber "sockA" 6 0)).1.rooms =
        some room' → room'.gameOver = true)
    ∧ (∀ sock pick now u, Op.drawNumber "sockA" 6 0 = Op.drawNumber sock pick now →
        mapGet sock wOverState.users = some u → u.isAdmin = true →
        u.roomId = some "ROOMAA" → "ROOMAA" ≠ "" →
        step wOverState (Op.drawNumber "sockA" 6 0) =
          (wOverState, [Ev.errorMsg sock "Game is over! A winner has been declared."])) :=
  claim_C2_gameOver_monotone_gates wOverState (Op.drawNumber "sockA" 6 0) "ROOMAA"
    (by decide) (by decide)

/-- Every live room's drawn set lies inside `[1, 90]`. -/
def drawnInRange (st : ServerState) : Prop :=
  ∀ p ∈ st.rooms, p.2.drawnNumbers ⊆ Finset.Icc 1 90

instance (st : ServerState) : Decidable (drawnInRange st) := by
  unfold drawnInRange
  infer_instance

/-- **C3.**  The drawn-number invariant: every operation (whose
nondeterministic inputs satisfy the generators' postconditions) keeps every
room's drawn set inside `[1, 90]`; every live room holds at most 90 drawn
numbers, and the broadcast serialisation of the set has no duplicate; a
successful draw adds exactly one fresh number from `[1, 90]`, and a draw on
a full pool fails with the PoolExhausted error. -/
theorem claim_C3_drawnNumbers_invariant (st : ServerState) (op : Op)
    (hok : opOk st op = true) (hinv : drawnInRange st) :
    drawnInRange (step st op).1
    ∧ (∀ rid room, mapGet rid st.rooms = some room →
        room.drawnNumbers.card ≤ 90 ∧ (sortedDraws room.drawnNumbers).Nodup)
    ∧ (∀ sock pick now u rid room, op = Op.drawNumber sock pick now →
        mapGet sock st.users = some u → u.isAdmin = true → u.roomId = some rid →
        rid ≠ "" → mapGet rid st.rooms = some room → room.gameOver = false →
        (room.drawnNumbers.card < 90 →
           (1 ≤ pick ∧ pick ≤ 90 ∧ pick ∉ room.drawnNumbers)
           ∧ (step st op).1.rooms =
               mapSet rid { room with drawnNumbers := insert pick room.drawnNumbers }
                 st.rooms)
        ∧ (90 ≤ room.drawnNumbers.card →
           step st op = (st, [Ev.errorMsg sock "All numbers have been drawn!"]))) := by
  refine ⟨?_, ?_, ?_⟩
  · -- the invariant is preserved
    have hgen : ∀ post : List (String × Room), RoomsChange st.rooms post →
        ∀ p ∈ post, p.2.drawnNumbers ⊆ Finset.Icc 1 90 := by
      intro post hch
      cases hch with
      | same => exact hinv
      | set rid0 R hev =>
        intro p hp
        rcases mem_mapSet hp with rfl | hp'
        · cases hg : mapGet rid0 st.rooms with
          | none =>
            rw [hg] at hev
            rw [hev.1]
            exact Finset.empty_subset _
          | some r0 =>
            rw [hg] at hev
            have hr0 : r0.drawnNumbers ⊆ Finset.Icc 1 90 := hinv _ (mapGet_mem hg)
            rcases hev.2.2 with heq | ⟨q, hq1, hq90, _, heq, _⟩
            · rw [heq]
              exact hr0
            · rw [heq]
              exact Finset.insert_subset (Finset.mem_Icc.mpr ⟨hq1, hq90⟩) hr0
        · exact hinv _ hp'
      | del rid0 =>
        intro p hp
        exact hinv _ (mem_mapDelete hp)
    exact hgen _ (step_roomsChange st op hok)
  · -- size bound and duplicate-freeness
    intro rid room hr
    have hsub : room.drawnNumbers ⊆ Finset.Icc 1 90 := hinv _ (mapGet_mem hr)
    refine ⟨?_, sortedDraws_nodup _⟩
    calc room.drawnNumbers.card ≤ (Finset.Icc 1 90).card := Finset.card_le_card hsub
    _ = 90 := by simp
  · -- the effect of a draw
    intro sock pick now u rid room hop hu hA hroomId hne hr hgo
    subst hop
    constructor
    · intro hlt
      refine ⟨opOk_draw_props hok hu hA hroomId hne hr hgo hlt, ?_⟩
      show (drawNumberStep sock pick now st).1.rooms = _
      unfold drawNumberStep
      simp only [hu, if_pos hA, hroomId, if_neg hne, hr, hgo, Bool.false_eq_true,
        if_false, if_neg (Nat.not_le.mpr hlt)]
    · intro hge
      show drawNumberStep sock pick now st = _
      unfold drawNumberStep
      simp only [hu, if_pos hA, hroomId, if_neg hne, hr, hgo, Bool.false_eq_true,
        if_false, if_pos hge]

/-- Witness for C3 at the concrete finished-game state with a fresh draw
request. -/
theorem claim_C3_drawnNumbers_invariant_witness :
    drawnInRange (step wOverState (Op.drawNumber "sockA" 6 0)).1
    ∧ (∀ rid room, mapGet rid wOverState.rooms = some room →
        room.drawnNumbers.card ≤ 90 ∧ (sortedDraws room.drawnNumbers).Nodup)
    ∧ (∀ sock pick now u rid room,
        Op.drawNumber "sockA" 6 0 = Op.drawNumber sock pick now →
        mapGet sock wOverState.users = some u → u.isAdmin = true →
        u.roomId = some rid → rid ≠ "" → mapGet rid wOverState.rooms = some room →
        room.gameOver = false →
        (room.drawnNumbers.card < 90 →
           (1 ≤ pick ∧ pick ≤ 90 ∧ pick ∉ room.drawnNumbers)
           ∧ (step wOverState (Op.drawNumber "sockA" 6 0)).1.rooms =
               mapSet rid { room with drawnNumbers := insert pick room.drawnNumbers }
                 wOverState.rooms)
        ∧ (90 ≤ room.drawnNumbers.card →
           step wOverState (Op.drawNumber "sockA" 6 0) =
             (wOverState, [Ev.errorMsg "sockA" "All numbers have been drawn!"]))) := by
  have h := claim_C3_drawnNumbers_invariant wOverState (Op.drawNumber "sockA" 6 0)
    (by decide) (by decide)
  refine ⟨h.1, h.2.1, ?_⟩
  intro sock pick now u rid room hop hu hA hroomId hne hr hgo
  obtain ⟨rfl, rfl, rfl⟩ : sock = "sockA" ∧ pick = 6 ∧ now = 0 := by
    injection hop with h1 h2 h3
    exact ⟨h1.symm, h2.symm, h3.symm⟩
  exact h.2.2 "sockA" 6 0 u rid room rfl hu hA hroomId hne hr hgo

/-- **C4.**  For every operation (with generator postconditions): the
notified-rows set of a surviving room only grows; every emitted
`game:rowCompleted` event corresponds to a `(playerId, rowIndex)` pair that
was not yet notified before the step and is notified after it; and no single
step emits two `game:rowCompleted` events for the same room and pair — so a
pair is collected and broadcast at most once in a room's lifetime. -/
theorem claim_C4_notifiedRows_monotone_no_dup (st : ServerState) (op : Op)
    (hok : opOk st op = true) :
    (∀ rid r r', mapGet rid st.rooms = some r →
       mapGet rid (step st op).1.rooms = some r' → r.completedRows ⊆ r'.completedRows)
    ∧ (∀ rid pid pname rn nums,
        Ev.rowCompleted rid pid pname rn nums ∈ (step st op).2 →
        ∃ r r', mapGet rid st.rooms = some r
          ∧ mapGet rid (step st op).1.rooms = some r'
          ∧ (pid, rn - 1) ∉ r.completedRows ∧ (pid, rn - 1) ∈ r'.completedRows)
    ∧ ((step st op).2.filterMap rowKey).Nodup := by
  refine ⟨?_, ?_, ?_⟩
  · intro rid r r' hpre hpost
    rcases roomsChange_get (step_roomsChange st op hok) rid r' hpost with
      ⟨r0, hr0, hev⟩ | ⟨hnone, _⟩
    · obtain rfl : r0 = r := Option.some.inj (hr0.symm.trans hpre)
      exact hev.2.1
    · rw [hpre] at hnone
      exact absurd hnone (by simp)
  · intro rid pid pname rn nums hev
    have hnorow : ∀ (l : List Ev), noRowEvents l →
        Ev.rowCompleted rid pid pname rn nums ∈ l → False := by
      intro l hl hmem
      have := hl _ hmem
      simp [rowKey] at this
    cases op with
    | adminLogin s u p => exact absurd hev (fun h => hnorow _ (adminLogin_noRow s u p st) h)
    | roomCreate s d f n =>
      exact absurd hev (fun h => hnorow _ (roomCreate_noRow s d f n st) h)
    | roomJoin s r n sid f =>
      exact absurd hev (fun h => hnorow _ (roomJoin_noRow s r n sid f st) h)
    | playerBingoCard s r c p =>
      exact absurd hev (fun h => hnorow _ (playerBingoCard_noRow s r c p st) h)
    | drawNumber s pick n =>
      exact absurd hev (fun h => hnorow _ (drawNumber_noRow s pick n st) h)
    | roomClose s r n =>
      exact absurd hev (fun h => hnorow _ (roomClose_noRow s r n st) h)
    | disconnect s => exact absurd hev (fun h => hnorow _ (disconnect_noRow s st) h)
    | winCheck rid0 =>
      show ∃ r r', mapGet rid st.rooms = some r
        ∧ mapGet rid (winCheckStep rid0 st).1.rooms = some r'
        ∧ (pid, rn - 1) ∉ r.completedRows ∧ (pid, rn - 1) ∈ r'.completedRows
      replace hev : Ev.rowCompleted rid pid pname rn nums ∈ (winCheckStep rid0 st).2 := hev
      unfold winCheckStep at hev ⊢
      cases hr : mapGet rid0 st.rooms with
      | none =>
        rw [hr] at hev
        exact absurd hev (List.not_mem_nil _)
      | some room =>
        rw [hr] at hev
        simp only at hev
        obtain ⟨c, hc, hceq⟩ := List.mem_map.mp hev
        have spec := checkAllPlayers_spec room.drawnNumbers room.playerData room.completedRows
        have hkey := spec.2.1 c hc
        injection hceq with e1 e2 e3 e4 e5
        subst e1
        subst e2
        subst e4
        refine ⟨room, winCheckRoomUpdate room, hr, ?_, ?_, ?_⟩
        · simp only [hr]
          rw [mapGet_mapSet, if_pos rfl]
        · exact hkey.1
        · rw [winCheckRoomUpdate_completedRows]
          exact hkey.2
  · have hnil : ∀ l : List Ev, noRowEvents l → (l.filterMap rowKey).Nodup := by
      intro l hl
      rw [filterMap_rowKey_nil hl]
      exact List.nodup_nil
    cases op with
    | adminLogin s u p => exact hnil _ (adminLogin_noRow s u p st)
    | roomCreate s d f n => exact hnil _ (roomCreate_noRow s d f n st)
    | roomJoin s r n sid f => exact hnil _ (roomJoin_noRow s r n sid f st)
    | playerBingoCard s r c p => exact hnil _ (playerBingoCard_noRow s r c p st)
    | drawNumber s pick n => exact hnil _ (drawNumber_noRow s pick n st)
    | roomClose s r n => exact hnil _ (roomClose_noRow s r n st)
    | disconnect s => exact hnil _ (disconnect_noRow s st)
    | winCheck rid0 =>
      show ((winCheckStep rid0 st).2.filterMap rowKey).Nodup
      unfold winCheckStep
      cases hr : mapGet rid0 st.rooms with
      | none => exact List.nodup_nil
      | some room =>
        simp only
        rw [filterMap_rowKey_map]
        have spec := checkAllPlayers_spec room.drawnNumbers room.playerData room.completedRows
        have : (checkPlayersForCompletedRows room).2.map (fun c => (rid0, keyOf c))
            = ((checkPlayersForCompletedRows room).2.map keyOf).map
                (fun k => (rid0, k)) := by
          rw [List.map_map]
          rfl
        rw [this]
        refine List.Nodup.map ?_ spec.2.2
        intro a b hab
        exact ((Prod.mk.injEq _ _ _ _).mp hab).2

/-- Witness for C4: the win-check pass on the pre-final state of `wOverTrace`
(the state just before its final `winCheck`). -/
theorem claim_C4_notifiedRows_monotone_no_dup_witness :
    (∀ rid r r', mapGet rid (runOps initState (wOverTrace.take 9)).rooms = some r →
       mapGet rid (step (runOps initState (wOverTrace.take 9)) (Op.winCheck "ROOMAA")).1.rooms
         = some r' → r.completedRows ⊆ r'.completedRows)
    ∧ (∀ rid pid pname rn nums,
        Ev.rowCompleted rid pid pname rn nums ∈
          (step (runOps initState (wOverTrace.take 9)) (Op.winCheck "ROOMAA")).2 →
        ∃ r r', mapGet rid (runOps initState (wOverTrace.take 9)).rooms = some r
          ∧ mapGet rid
              (step (runOps initState (wOverTrace.take 9)) (Op.winCheck "ROOMAA")).1.rooms
              = some r'
          ∧ (pid, rn - 1) ∉ r.completedRows ∧ (pid, rn - 1) ∈ r'.completedRows)
    ∧ (((step (runOps initState (wOverTrace.take 9)) (Op.winCheck "ROOMAA")).2.filterMap
          rowKey).Nodup) :=
  claim_C4_notifiedRows_monotone_no_dup (runOps initState (wOverTrace.take 9))
    (Op.winCheck "ROOMAA") (by decide)

/-! ### C5: reconnection -/

/-- Admin creates a room, Alice joins with durable id `pid1`, submits `wCard`
and disconnects. -/
def c5Trace : List Op :=
  [ .adminLogin "sockA" "admin" "admin123",
    .roomCreate "sockA" none "ROOMAA" 0,
    .roomJoin "sockP" "ROOMAA" "Alice" none "pid1",
    .playerBingoCard "sockP" "ROOMAA" wCard (some "pid1"),
    .disconnect "sockP" ]

/-- The state reached by `c5Trace`. -/
def c5State : ServerState := runOps initState c5Trace

/-- The room held by `c5State` (Alice's profile retained, her socket cleared). -/
def c5Room : Room :=
  { roomId := "ROOMAA", adminId := "sockA", adminSocketId := some "sockA",
    players := {"sockA"}, drawnNumbers := ∅, gameStarted := false, gameOver := false,
    winner := none, winnerInfo := none, createdAt := 0,
    playerData := [("pid1", { username := "Alice", bingoCard := some wCard,
                              socketId := none })],
    completedRows := ∅ }

/-- Alice's stored profile in `c5State`. -/
def c5Pd : PlayerData :=
  { username := "Alice", bingoCard := some wCard, socketId := none }

/-- **C5, counterexample.**  Rejoining with a valid prior id but a different
supplied name returns (and stores) the newly supplied name, not the name
previously stored on the profile: the stored name was `"Alice"`, the join
response says `"Alicia"`. -/
theorem claim_C5_counterexample :
    ((mapGet "ROOMAA" c5State.rooms).bind (fun r => mapGet "pid1" r.playerData)).map
        (fun p => p.username) = some "Alice"
    ∧ Ev.roomJoined "sockQ" "ROOMAA" 2 false [] "pid1" "Alicia" (some wCard)
        ∈ (step c5State (Op.roomJoin "sockQ" "ROOMAA" "Alicia" (some "pid1") "freshZ")).2
    ∧ ("Alicia" : String) ≠ "Alice" := by
  decide

/-- **C5 (amended).**  When the presented session id is truthy and resolves to
an existing profile of the room, `room:join` reuses that profile: the room's
profile count is unchanged and the join response carries the identical stored
card; the name returned (and written back to the profile) is the trimmed
newly supplied name, which overwrites the stored one. -/
theorem claim_C5_join_reuses_profile (st : ServerState)
    (sock rid name sid fresh : String) (room : Room) (pd : PlayerData)
    (hroom : mapGet rid st.rooms = some room)
    (hsid : sid ≠ "")
    (hpd : mapGet sid room.playerData = some pd)
    (htrim : trimChars name ≠ "")
    (hclash : nameClash room (some sid) (trimChars name) = false) :
    (∃ room', mapGet rid (roomJoinStep sock rid name (some sid) fresh st).1.rooms
        = some room'
      ∧ room'.playerData.length = room.playerData.length
      ∧ mapGet sid room'.playerData
          = some { pd with username := trimChars name, socketId := some sock })
    ∧ (roomJoinStep sock rid name (some sid) fresh st).2.head?
        = some (Ev.roomJoined sock rid (insert sock room.players).card
            ((mapGet sock st.users).elim false (fun u => u.isAdmin))
            (sortedDraws room.drawnNumbers) sid (trimChars name) pd.bingoCard) := by
  have hresolve : resolvePlayerId room (some sid) fresh = sid := by
    show (if sid ≠ "" ∧ mapHas sid room.playerData = true then sid else fresh) = sid
    rw [if_pos ⟨hsid, by simp [mapHas, hpd]⟩]
  have hjoined : joinedPlayerData room sid (trimChars name) sock
      = { pd with username := trimChars name, socketId := some sock } := by
    unfold joinedPlayerData
    rw [hpd]
  unfold roomJoinStep
  simp only [hroom, if_neg htrim, hclash, Bool.false_eq_true, if_false,
    hresolve, hjoined]
  refine ⟨⟨{ room with
      playerData := mapSet sid
        ({ pd with username := trimChars name, socketId := some sock }) room.playerData,
      players := insert sock room.players }, ?_, ?_, ?_⟩, ?_⟩
  · rw [mapGet_mapSet, if_pos rfl]
  · exact length_mapSet_of_has _ (by simp [mapHas, hpd])
  · rw [mapGet_mapSet, if_pos rfl]
  · cases hu : mapGet sock st.users with
    | none => rfl
    | some u => rfl

/-- Witness for C5 (amended) at `c5State` with a fresh socket re-presenting
`pid1`. -/
theorem claim_C5_join_reuses_profile_witness :
    (∃ room', mapGet "ROOMAA"
        (roomJoinStep "sockQ" "ROOMAA" "Alicia" (some "pid1") "freshZ" c5State).1.rooms
        = some room'
      ∧ room'.playerData.length = c5Room.playerData.length
      ∧ mapGet "pid1" room'.playerData
          = some { c5Pd with username := trimChars "Alicia", socketId := some "sockQ" })
    ∧ (roomJoinStep "sockQ" "ROOMAA" "Alicia" (some "pid1") "freshZ" c5State).2.head?
        = some (Ev.roomJoined "sockQ" "ROOMAA" (insert "sockQ" c5Room.players).card
            ((mapGet "sockQ" c5State.users).elim false (fun u => u.isAdmin))
            (sortedDraws c5Room.drawnNumbers) "pid1" (trimChars "Alicia")
            c5Pd.bingoCard) :=
  claim_C5_join_reuses_profile c5State "sockQ" "ROOMAA" "Alicia" "pid1" "freshZ"
    c5Room c5Pd (by decide) (by decide) (by decide) (by decide) (by decide)

/-! ### C6: draw authorization -/

/-- An admin-authenticated connection that joined someone else's room as a
player. -/
def c6Trace : List Op :=
  [ .adminLogin "sockA" "admin" "admin123",
    .roomCreate "sockA" none "ROOMAA" 0,
    .adminLogin "sockB" "admin" "admin123",
    .roomJoin "sockB" "ROOMAA" "Eve" none "pidE" ]

/-- The state reached by `c6Trace`. -/
def c6State : ServerState := runOps initState c6Trace

/-- **C6, counterexample.**  A connection that is not the room's bound admin
(the room's admin slot holds `sockA`) successfully draws a number in it:
the handler only checks that the requester is an admin user with a bound
room, not that it is this room's admin. -/
theorem claim_C6_counterexample :
    (mapGet "ROOMAA" c6State.rooms).map (fun r => (r.adminSocketId, r.adminId))
        = some (some "sockA", "sockA")
    ∧ ("sockB" : String) ≠ "sockA"
    ∧ (step c6State (Op.drawNumber "sockB" 7 1000)).2
        = [Ev.numberDrawn "ROOMAA" 7 1500 [7]]
    ∧ (mapGet "ROOMAA" (step c6State (Op.drawNumber "sockB" 7 1000)).1.rooms).map
        (fun r => r.drawnNumbers) = some ({7} : Finset Nat) := by
  decide

/-- **C6 (amended).**  A `drawNumber` request fails with the NotAuthorized
error and leaves the state unchanged whenever the requesting connection is
not an admin-authenticated user with a truthy bound room; when it is, the
draw is applied to the requester's bound room, which need not have the
requester as its bound admin. -/
theorem claim_C6_draw_notAuthorized (st : ServerState) (sock : String) (pick now : Nat)
    (hno : match mapGet sock st.users with
           | none => True
           | some u => u.isAdmin = false ∨ u.roomId = none ∨ u.roomId = some "") :
    drawNumberStep sock pick now st
      = (st, [Ev.errorMsg sock "Only room admin can draw numbers"]) := by
  unfold drawNumberStep
  cases hu : mapGet sock st.users with
  | none => rfl
  | some u =>
    simp only [hu] at hno
    rcases hno with hA | hrid | hrid
    · have hA' : ¬u.isAdmin = true := by
        rw [hA]
        exact Bool.false_ne_true
      simp only [if_neg hA']
    · by_cases hAt : u.isAdmin = true
      · simp only [if_pos hAt, hrid]
      · simp only [if_neg hAt]
    · by_cases hAt : u.isAdmin = true
      · simp [if_pos hAt, hrid]
      · simp only [if_neg hAt]

/-- Witness for C6 (amended): a connection with no user record. -/
theorem claim_C6_draw_notAuthorized_witness :
    drawNumberStep "sockX" 7 0 initState
      = (initState, [Ev.errorMsg "sockX" "Only room admin can draw numbers"]) :=
  claim_C6_draw_notAuthorized initState "sockX" 7 0 trivial

/-! ### C7: closing a room -/

/-- Admin creates a room on `sockA`, disconnects, and re-binds to it from a
fresh connection `sockB`. -/
def c7Trace : List Op :=
  [ .adminLogin "sockA" "admin" "admin123",
    .roomCreate "sockA" none "ROOMAA" 0,
    .disconnect "sockA",
    .adminLogin "sockB" "admin" "admin123",
    .roomCreate "sockB" (some "ROOMAA") "UNUSED" 5 ]

/-- The state reached by `c7Trace`: the room's admin slot holds `sockB`, but
its recorded creator id is still `sockA`. -/
def c7State : ServerState := runOps initState c7Trace

/-- The finished room held by `wOverState`. -/
def wOverRoom : Room :=
  { roomId := "ROOMAA", adminId := "sockA", adminSocketId := some "sockA",
    players := {"sockP", "sockA"}, drawnNumbers := {67, 41, 23, 12, 5},
    gameStarted := false, gameOver := true, winner := some "Sam",
    winnerInfo := some { playerId := "pid1", playerName := "Sam", rowNumber := 1,
                         numbers := [5, 12, 23, 41, 67], bingoCard := some wCard },
    createdAt := 0,
    playerData := [("pid1", { username := "Sam", bingoCard := some wCard,
                              socketId := some "sockP" })],
    completedRows := {("pid1", 0)} }

/-- **C7, counterexample.**  The room's *current* admin — the connection its
admin slot was re-bound to — cannot close the room while the game is not
over: the close request is a silent no-op, because the handler compares the
requester against the frozen creator id `adminId`, which re-binding does not
update. -/
theorem claim_C7_counterexample :
    (mapGet "ROOMAA" c7State.rooms).map (fun r => (r.adminSocketId, r.adminId, r.gameOver))
        = some (some "sockB", "sockA", false)
    ∧ (mapGet "sockB" c7State.users).map (fun u => u.isAdmin) = some true
    ∧ step c7State (Op.roomClose "sockB" "ROOMAA" 99) = (c7State, [])
    ∧ mapHas "ROOMAA" (step c7State (Op.roomClose "sockB" "ROOMAA" 99)).1.rooms = true := by
  decide

/-- **C7 (amended).**  A `room:close` on a live room succeeds for an admin
user whose connection id equals the room's recorded *creator* id (`adminId`,
never updated on re-bind), and succeeds for any connection once the room is
over; on success, when the room is over with a winner record, the summary is
appended to the history before the room is removed, and a `room:closed`
notification is broadcast to the room. -/
theorem claim_C7_close_rules (st : ServerState) (sock rid : String) (now : Nat)
    (room : Room) (hroom : mapGet rid st.rooms = some room) :
    (∀ u, mapGet sock st.users = some u → u.isAdmin = true → room.adminId = u.userId →
       roomCloseStep sock rid now st
         = ({ st with
                rooms := mapDelete rid st.rooms,
                history :=
                  if room.gameOver = true then
                    match room.winnerInfo with
                    | some wi =>
                      addRoomToHistory st.maxHistorySize st.history (roomSummary room wi now)
                    | none => st.history
                  else st.history },
            [Ev.roomClosed rid "Room has been closed"]))
    ∧ (room.gameOver = true →
        (roomCloseStep sock rid now st).1
            = { st with
                  rooms := mapDelete rid st.rooms,
                  history :=
                    match room.winnerInfo with
                    | some wi =>
                      addRoomToHistory st.maxHistorySize st.history (roomSummary room wi now)
                    | none => st.history }
        ∧ ∃ msg, (roomCloseStep sock rid now st).2 = [Ev.roomClosed rid msg]) := by
  constructor
  · intro u hu hA hid
    have hca : isCreatorAdminReq st sock room = true := by
      unfold isCreatorAdminReq
      simp [hu, hA, hid]
    unfold roomCloseStep
    simp [hroom, if_pos hca]
  · intro hgo
    unfold roomCloseStep
    by_cases hca : isCreatorAdminReq st sock room = true
    · constructor
      · simp [hroom, if_pos hca, hgo]
      · exact ⟨"Room has been closed", by simp [hroom, if_pos hca]⟩
    · constructor
      · simp [hroom, if_neg hca, if_pos hgo]
      · exact ⟨"Game is over. Room is closing.", by simp [hroom, if_neg hca, if_pos hgo]⟩

/-- Witness for C7 (amended) on the finished game of `wOverState`, closed by
its creator admin. -/
theorem claim_C7_close_rules_witness :
    (∀ u, mapGet "sockA" wOverState.users = some u → u.isAdmin = true →
       wOverRoom.adminId = u.userId →
       roomCloseStep "sockA" "ROOMAA" 99 wOverState
         = ({ wOverState with
              rooms := mapDelete "ROOMAA" wOverState.rooms,
              history :=
                if wOverRoom.gameOver = true then
                  match wOverRoom.winnerInfo with
                  | some wi =>
                    addRoomToHistory wOverState.maxHistorySize wOverState.history
                      (roomSummary wOverRoom wi 99)
                  | none => wOverState.history
                else wOverState.history },
            [Ev.roomClosed "ROOMAA" "Room has been closed"]))
    ∧ (wOverRoom.gameOver = true →
        (roomCloseStep "sockA" "ROOMAA" 99 wOverState).1
            = { wOverState with
                rooms := mapDelete "ROOMAA" wOverState.rooms,
                history :=
                  match wOverRoom.winnerInfo with
                  | some wi =>
                    addRoomToHistory wOverState.maxHistorySize wOverState.history
                      (roomSummary wOverRoom wi 99)
                  | none => wOverState.history }
        ∧ ∃ msg, (roomCloseStep "sockA" "ROOMAA" 99 wOverState).2
            = [Ev.roomClosed "ROOMAA" msg]) :=
  claim_C7_close_rules wOverState "sockA" "ROOMAA" 99 wOverRoom (by decide)

/-! ### C8: room creation, re-binding, and admin disconnect -/

/-- **C8.**  For a recognized admin: presenting the code of a live room whose
admin slot is empty re-binds that slot to the requester and returns the
existing room with its current drawn-number serialisation; otherwise a room
is created under the fresh 6-character alphanumeric code (unused among live
rooms, by the generation loop) with empty drawn state; and an admin
disconnect clears only the admin slot (dropping the connection from the
presence set) while the room, its drawn numbers and its player profiles stay
in the registry. -/
theorem claim_C8_createRoom (st : ServerState) (sock : String) (u : User)
    (hu : mapGet sock st.users = some u) (hA : u.isAdmin = true) :
    (∀ rid room fresh now, rid ≠ "" → mapGet rid st.rooms = some room →
       room.adminSocketId = none →
       roomCreateStep sock (some rid) fresh now st
         = ({ st with
              rooms := mapSet rid
                ({ room with adminSocketId := some sock,
                             players := insert sock room.players }) st.rooms,
              users := mapSet sock ({ adminName u with roomId := some rid }) st.users },
            [Ev.roomCreated sock rid (insert sock room.players).card true
               (some (sortedDraws room.drawnNumbers)),
             Ev.playersList sock (playersListOf
               ({ room with adminSocketId := some sock,
                            players := insert sock room.players }))]))
    ∧ (∀ dataRid fresh now,
        isGeneratedCode fresh = true → mapHas fresh st.rooms = false →
        (∀ rid room, dataRid = some rid → rid ≠ "" → mapGet rid st.rooms = some room →
          room.adminSocketId ≠ none) →
        fresh.length = 6
        ∧ roomCreateStep sock dataRid fresh now st
          = ({ st with
               rooms := mapSet fresh (freshRoom sock fresh now) st.rooms,
               users := mapSet sock ({ adminName u with roomId := some fresh }) st.users },
             [Ev.roomCreated sock fresh 1 false none, Ev.playersList sock []]))
    ∧ (∀ rid room, u.roomId = some rid → mapGet rid st.rooms = some room →
        (room.adminSocketId = some sock ∨ room.adminId = sock) →
        disconnectStep sock st
          = ({ st with
               rooms := mapSet rid ({ dropSock sock room with adminSocketId := none })
                 st.rooms,
               users := mapDelete sock st.users }, [])
        ∧ ∀ room', mapGet rid (disconnectStep sock st).1.rooms = some room' →
            room'.drawnNumbers = room.drawnNumbers ∧ room'.adminSocketId = none
            ∧ room'.playerData = room.playerData) := by
  refine ⟨?_, ?_, ?_⟩
  · intro rid room fresh now hne hroomget hslot
    unfold roomCreateStep
    simp [hu, if_pos hA, if_neg hne, hroomget, if_pos hslot]
    rfl
  · intro dataRid fresh now hgen hfree hnorebind
    constructor
    · have := hgen
      unfold isGeneratedCode at this
      simp only [Bool.and_eq_true, beq_iff_eq] at this
      exact this.1
    · have hend : roomCreateStep sock dataRid fresh now st
          = createFreshRoom sock (adminName u) fresh now st := by
        unfold roomCreateStep
        cases dataRid with
        | none => simp [hu, if_pos hA]
        | some rid =>
          by_cases hne : rid = ""
          · simp [hu, if_pos hA, if_pos hne]
          · cases hroomget : mapGet rid st.rooms with
            | none => simp [hu, if_pos hA, if_neg hne, hroomget]
            | some room =>
              have hslot : room.adminSocketId ≠ none :=
                hnorebind rid room rfl hne hroomget
              simp [hu, if_pos hA, if_neg hne, hroomget, if_neg hslot]
      rw [hend]
      unfold createFreshRoom
      rfl
  · intro rid room hurid hroomget hadm
    have hcond : (u.isAdmin
        && (room.adminSocketId == some sock || room.adminId == sock)) = true := by
      rw [hA, Bool.true_and]
      rcases hadm with h | h
      · rw [h]
        simp
      · rw [h]
        simp
    have heq : disconnectStep sock st
        = ({ st with
             rooms := mapSet rid ({ dropSock sock room with adminSocketId := none })
               st.rooms,
             users := mapDelete sock st.users }, []) := by
      unfold disconnectStep
      simp only [hu, hurid, hroomget, if_pos hcond]
    refine ⟨heq, ?_⟩
    intro room' hroom'
    rw [heq] at hroom'
    simp only [mapGet_mapSet, if_pos rfl] at hroom'
    obtain rfl : ({ dropSock sock room with adminSocketId := none } : Room) = room' :=
      Option.some.inj hroom'
    exact ⟨rfl, rfl, rfl⟩

/-- Witness for C8: the state after the admin's disconnect in `c7Trace`
(room live, admin slot empty), with `sockB` as the recognized admin. -/
theorem claim_C8_createRoom_witness :
    (∀ rid room fresh now, rid ≠ "" →
       mapGet rid (runOps initState (c7Trace.take 4)).rooms = some room →
       room.adminSocketId = none →
       roomCreateStep "sockB" (some rid) fresh now (runOps initState (c7Trace.take 4))
         = ({ runOps initState (c7Trace.take 4) with
              rooms := mapSet rid
                ({ room with adminSocketId := some "sockB",
                             players := insert "sockB" room.players })
                (runOps initState (c7Trace.take 4)).rooms,
              users := mapSet "sockB"
                ({ adminName { userId := "sockB", username := "admin", isAdmin := true,
                               roomId := none, playerId := none, bingoCard := none }
                   with roomId := some rid })
                (runOps initState (c7Trace.take 4)).users },
            [Ev.roomCreated "sockB" rid (insert "sockB" room.players).card true
               (some (sortedDraws room.drawnNumbers)),
             Ev.playersList "sockB" (playersListOf
               ({ room with adminSocketId := some "sockB",
                            players := insert "sockB" room.players }))]))
    ∧ (∀ dataRid fresh now,
        isGeneratedCode fresh = true →
        mapHas fresh (runOps initState (c7Trace.take 4)).rooms = false →
        (∀ rid room, dataRid = some rid → rid ≠ "" →
          mapGet rid (runOps initState (c7Trace.take 4)).rooms = some room →
          room.adminSocketId ≠ none) →
        fresh.length = 6
        ∧ roomCreateStep "sockB" dataRid fresh now (runOps initState (c7Trace.take 4))
          = ({ runOps initState (c7Trace.take 4) with
               rooms := mapSet fresh (freshRoom "sockB" fresh now)
                 (runOps initState (c7Trace.take 4)).rooms,
               users := mapSet "sockB"
                 ({ adminName { userId := "sockB", username := "admin", isAdmin := true,
                                roomId := none, playerId := none, bingoCard := none }
                    with roomId := some fresh })
                 (runOps initState (c7Trace.take 4)).users },
             [Ev.roomCreated "sockB" fresh 1 false none, Ev.playersList "sockB" []]))
    ∧ (∀ rid room,
        ({ userId := "sockB", username := "admin", isAdmin := true,
           roomId := none, playerId := none, bingoCard := none } : User).roomId
          = some rid →
        mapGet rid (runOps initState (c7Trace.take 4)).rooms = some room →
        (room.adminSocketId = some "sockB" ∨ room.adminId = "sockB") →
        disconnectStep "sockB" (runOps initState (c7Trace.take 4))
          = ({ runOps initState (c7Trace.take 4) with
               rooms := mapSet rid ({ dropSock "sockB" room with adminSocketId := none })
                 (runOps initState (c7Trace.take 4)).rooms,
               users := mapDelete "sockB" (runOps initState (c7Trace.take 4)).users }, [])
        ∧ ∀ room',
            mapGet rid (disconnectStep "sockB" (runOps initState (c7Trace.take 4))).1.rooms
              = some room' →
            room'.drawnNumbers = room.drawnNumbers ∧ room'.adminSocketId = none
            ∧ room'.playerData = room.playerData) :=
  claim_C8_createRoom (runOps initState (c7Trace.take 4)) "sockB"
    { userId := "sockB", username := "admin", isAdmin := true,
      roomId := none, playerId := none, bingoCard := none }
    (by decide) (by decide)

/-! ### C9: history eviction -/

/-- **C9.**  The history store caps its record count by evicting the records
with the oldest `closedAt` first: with a cap of 2, after appending three
summaries closed at `t1 < t2 < t3`, exactly the records closed at `t2` and
`t3` remain. -/
theorem claim_C9_history_eviction (r1 r2 r3 : HistRecord)
    (h12 : r1.closedAt < r2.closedAt) (h23 : r2.closedAt < r3.closedAt) :
    addRoomToHistory 2 (addRoomToHistory 2 (addRoomToHistory 2 [] r1) r2) r3
      = [r2, r3] := by
  have h1 : addRoomToHistory 2 [] r1 = [r1] := rfl
  have h2 : addRoomToHistory 2 [r1] r2 = [r1, r2] := rfl
  rw [h1, h2]
  show checkDiskSpaceAndCleanup 2 [r1, r2, r3] = [r2, r3]
  have e2 : insertByClosedAt r2 [r3] = [r2, r3] := by
    unfold insertByClosedAt
    rw [if_pos h23]
  have e1 : insertByClosedAt r1 [r2, r3] = [r1, r2, r3] := by
    unfold insertByClosedAt
    rw [if_pos h12]
  have hsort : sortByClosedAt [r1, r2, r3] = [r1, r2, r3] := by
    unfold sortByClosedAt
    simp only [List.foldr_cons, List.foldr_nil]
    rw [show insertByClosedAt r3 [] = [r3] from rfl, e2, e1]
  unfold checkDiskSpaceAndCleanup
  rw [if_pos (by simp)]
  unfold cleanupOldRooms
  rw [if_neg (by simp)]
  rw [hsort]
  rfl

/-- A minimal summary record closed at time `t`. -/
def c9rec (t : Nat) : HistRecord :=
  { roomId := "R", createdAt := 0, closedAt := t, winner := "w", winnerRowNumber := 1,
    winnerNumbers := [], winnerBingoCard := none, totalPlayers := 1,
    totalNumbersDrawn := 0 }

/-- Witness for C9 with close times 1 < 2 < 3. -/
theorem claim_C9_history_eviction_witness :
    addRoomToHistory 2 (addRoomToHistory 2 (addRoomToHistory 2 [] (c9rec 1)) (c9rec 2))
        (c9rec 3)
      = [c9rec 2, c9rec 3] :=
  claim_C9_history_eviction (c9rec 1) (c9rec 2) (c9rec 3) (by decide) (by decide)

/-! ### C10: silent no-op close -/

/-- **C10.**  A `room:close` on a live, not-yet-over room by a requester whose
connection id is not the room's recorded creator admin id is a silent no-op:
the state (registry, room, history) is unchanged and no event at all — not
even an error — is emitted.  (`usersConsistent` holds of every state the
handlers produce: a user record is only ever stored under its own socket
id.) -/
theorem claim_C10_close_silent_noop (st : ServerState) (sock rid : String) (now : Nat)
    (room : Room) (hcons : usersConsistent st = true)
    (hroom : mapGet rid st.rooms = some room)
    (hgo : room.gameOver = false) (hne : sock ≠ room.adminId) :
    step st (Op.roomClose sock rid now) = (st, []) := by
  show roomCloseStep sock rid now st = (st, [])
  have hca : isCreatorAdminReq st sock room = false := by
    unfold isCreatorAdminReq
    cases hu : mapGet sock st.users with
    | none => rfl
    | some u =>
      have huid : u.userId = sock := usersConsistent_get hcons hu
      have hbeq : (room.adminId == u.userId) = false := by
        rw [huid]
        exact beq_eq_false_iff_ne.mpr (fun h => hne h.symm)
      simp [hbeq]
  unfold roomCloseStep
  have hca' : ¬isCreatorAdminReq st sock room = true := by
    rw [hca]
    exact Bool.false_ne_true
  have hgo' : ¬room.gameOver = true := by
    rw [hgo]
    exact Bool.false_ne_true
  simp [hroom, if_neg hca', if_neg hgo']

/-- Witness for C10: a stranger socket tries to close the live room of
`c5State`. -/
theorem claim_C10_close_silent_noop_witness :
    step c5State (Op.roomClose "sockX" "ROOMAA" 42) = (c5State, []) :=
  claim_C10_close_silent_noop c5State "sockX" "ROOMAA" 42 c5Room (by decide) (by decide)
    (by decide) (by decide)

end BingoServer
